/-
Verification of the resilient-http library core against its specification.

The definitions below are shallow embeddings of the TypeScript sources:
  * `src/core/backoff.ts`   — backoff strategies
  * `src/errors/extractor.ts` — error detection, classification, extraction
  * `src/retry/index.ts`    — retry orchestrator (`retry`, `retryWithSignal`)
  * `src/utils` (`sleepWithAbort`)
  * `src/circuit-breaker/circuit-breaker.ts` — circuit breaker state machine
  * `src/circuit-breaker/state-store.ts` — `InMemoryStateStore`

JavaScript numbers are modelled as `Nat`/`Int`/`ℚ` as appropriate; JS object
aliasing (for the state store) is modelled with an explicit heap; the event
loop is modelled by explicit interleaving of operation steps.
-/
import Mathlib

/-! # Backoff strategies (src/core/backoff.ts) -/

inductive BackoffStrategy where
  | exponential
  | linear
  | constant
deriving DecidableEq, Repr

/-- Configuration for backoff calculation (`BackoffConfig` in backoff.ts). -/
structure BackoffConfig where
  initialDelay : ℚ
  maxDelay : ℚ
  multiplier : ℚ
  strategy : BackoffStrategy

/-- `exponentialBackoff` from backoff.ts:
`delay = initialDelay * multiplier ^ attempt; return Math.min(delay, maxDelay)`. -/
def exponentialBackoff (attempt : Nat) (config : BackoffConfig) : ℚ :=
  min (config.initialDelay * config.multiplier ^ attempt) config.maxDelay

/-- `linearBackoff` from backoff.ts. -/
def linearBackoff (attempt : Nat) (config : BackoffConfig) : ℚ :=
  min (config.initialDelay + config.multiplier * attempt * config.initialDelay)
    config.maxDelay

/-- `constantBackoff` from backoff.ts. -/
def constantBackoff (_attempt : Nat) (config : BackoffConfig) : ℚ :=
  config.initialDelay

/-- `calculateBackoff` from backoff.ts (dispatch on the strategy). -/
def calculateBackoff (attempt : Nat) (config : BackoffConfig) : ℚ :=
  match config.strategy with
  | .exponential => exponentialBackoff attempt config
  | .linear => linearBackoff attempt config
  | .constant => constantBackoff attempt config

/-! # Error classification (src/errors/extractor.ts) -/

inductive ErrorClassification where
  | network
  | timeout
  | server
  | rateLimit
  | client
  | authentication
  | notFound
  | validation
  | cancelled
  | unknown
deriving DecidableEq, Repr

/-- `RETRYABLE_NETWORK_CODES` from extractor.ts. -/
def RETRYABLE_NETWORK_CODES : List String :=
  ["ECONNRESET", "ECONNREFUSED", "ETIMEDOUT", "ECONNABORTED", "ENETUNREACH",
   "EHOSTUNREACH", "EPIPE", "EAI_AGAIN", "ENOTFOUND", "ERR_NETWORK",
   "UND_ERR_CONNECT_TIMEOUT", "UND_ERR_SOCKET"]

/-- `RETRYABLE_STATUS_CODES` from extractor.ts. -/
def RETRYABLE_STATUS_CODES : List Int := [408, 429, 500, 502, 503, 504]

/-- `classifyError(statusCode?, errorCode?)` from extractor.ts.  A JS
`if (errorCode)` / `if (statusCode)` guard is truthiness: the empty string and
the number 0 are falsy, which is modelled explicitly. -/
def classifyError (statusCode : Option Int) (errorCode : Option String) :
    ErrorClassification :=
  let fromCode : Option ErrorClassification :=
    match errorCode with
    | none => none
    | some c =>
      if c = "" then none
      else if c = "ETIMEDOUT" ∨ c = "ECONNABORTED" ∨ c = "UND_ERR_CONNECT_TIMEOUT" then
        some .timeout
      else if c ∈ RETRYABLE_NETWORK_CODES then some .network
      else if c = "ERR_CANCELED" ∨ c = "ABORT_ERR" then some .cancelled
      else none
  match fromCode with
  | some cl => cl
  | none =>
    match statusCode with
    | none => .unknown
    | some s =>
      if s = 0 then .unknown
      else if s = 429 then .rateLimit
      else if s = 401 ∨ s = 403 then .authentication
      else if s = 404 then .notFound
      else if s = 400 ∨ s = 422 then .validation
      else if 500 ≤ s then .server
      else if 400 ≤ s then .client
      else .unknown

/-- `isRetryableError(classification, statusCode?)` from extractor.ts. -/
def isRetryableError (classification : ErrorClassification)
    (statusCode : Option Int := none) : Bool :=
  if classification = .network ∨ classification = .timeout ∨
      classification = .server ∨ classification = .rateLimit then
    true
  else
    match statusCode with
    | some s => decide (s ≠ 0) && RETRYABLE_STATUS_CODES.contains s
    | none => false

/-! # JavaScript value model for duck-typed error objects -/

/-- A JavaScript runtime value, as inspected by the extractor.  Objects carry
an `isError` flag modelling `instanceof Error`; property lookup on a
non-object yields `undefined`. -/
inductive JsValue where
  | null
  | undefined
  | bool (b : Bool)
  | num (n : Int)
  | str (s : String)
  | obj (isError : Bool) (fields : List (String × JsValue))

/-- JS truthiness. -/
def JsValue.truthy : JsValue → Bool
  | .null => false
  | .undefined => false
  | .bool b => b
  | .num n => decide (n ≠ 0)
  | .str s => decide (s ≠ "")
  | .obj _ _ => true

/-- `typeof v === 'object'` (true for `null` as well, as in JS). -/
def JsValue.isObject : JsValue → Bool
  | .obj _ _ => true
  | .null => true
  | _ => false

/-- Property access `v[k]`; `undefined` when absent or when `v` is not an
object. -/
def JsValue.getField : JsValue → String → JsValue
  | .obj _ fields, k =>
    match fields.find? (fun p => p.1 == k) with
    | some p => p.2
    | none => .undefined
  | _, _ => .undefined

/-- `v === s` for a string literal `s` (strict equality). -/
def JsValue.strEq : JsValue → String → Bool
  | .str s, t => s == t
  | _, _ => false

def JsValue.asStr : JsValue → Option String
  | .str s => some s
  | _ => none

def JsValue.asNum : JsValue → Option Int
  | .num n => some n
  | _ => none

/-- A field value read through a TS `as string` cast and then used with a
`|| default` fallback: the string when it is a non-empty string, otherwise
the default. -/
def JsValue.strOrDefault (v : JsValue) (d : String) : String :=
  match v with
  | .str s => if s = "" then d else s
  | _ => d

/-- An optional field: `none` when the property is absent. -/
def JsValue.optField (v : JsValue) (k : String) : Option JsValue :=
  match v.getField k with
  | .undefined => none
  | w => some w

/-- JS `a || b`: `a` when truthy, else `b`. -/
def jsOr (a b : JsValue) : JsValue :=
  if a.truthy then a else b

/-- `String(v)` on primitives. -/
def jsToString : JsValue → String
  | .null => "null"
  | .undefined => "undefined"
  | .bool true => "true"
  | .bool false => "false"
  | .num n => toString n
  | .str s => s
  | .obj _ _ => "[object Object]"

/-- Substring test on `List Char`, for JS `String.prototype.includes`. -/
def charsContain (sub : List Char) : List Char → Bool
  | [] => sub.isEmpty
  | c :: t => sub.isPrefixOf (c :: t) || charsContain sub t

/-- JS `s.includes(sub)`. -/
def strIncludes (s sub : String) : Bool :=
  charsContain sub.toList s.toList

/-- JS `s.startsWith(p)`. -/
def strStartsWith (s p : String) : Bool :=
  p.toList.isPrefixOf s.toList

/-! # Client detection and extraction (src/errors/extractor.ts) -/

/-- `detectClientType(error)` from extractor.ts, returning the client tag. -/
def detectClientType (error : JsValue) : String :=
  if !error.truthy || !error.isObject then "generic"
  else if error.getField "isAxiosError" matches .bool true then "axios"
  else if (error.getField "name").strEq "HTTPError" ||
      (error.getField "name").strEq "RequestError" then "got"
  else if (error.getField "cause").truthy && (error.getField "cause").isObject &&
      (match ((error.getField "cause").getField "code").asStr with
       | some c => strStartsWith c "UND_ERR_"
       | none => false) then "undici"
  else if (error.getField "name").strEq "TypeError" &&
      (match (error.getField "message").asStr with
       | some m => strIncludes m "fetch" || strIncludes m "network"
       | none => false) then "fetch"
  else if (error.getField "type").strEq "system" ||
      (error.getField "type").strEq "body-timeout" ||
      (error.getField "type").strEq "request-timeout" then "node-fetch"
  else "generic"

/-- The `StandardizedError` record from src/types. -/
structure StandardizedError where
  originalError : JsValue
  message : String
  statusCode : Option Int := none
  method : Option String := none
  url : Option String := none
  headers : Option JsValue := none
  body : Option JsValue := none
  code : Option String := none
  classification : ErrorClassification
  isRetryable : Bool
  clientType : String

/-- `extractMessageFromBody(body)` from extractor.ts. -/
def extractMessageFromBody (body : JsValue) : Option String :=
  if !body.truthy then none
  else
    match body with
    | .str s => some s
    | .obj _ _ =>
      (body.getField "message").asStr <|>
      (body.getField "error").asStr <|>
      (body.getField "detail").asStr <|>
      (body.getField "msg").asStr <|>
      (body.getField "errorMessage").asStr <|>
      (if (body.getField "error").truthy && (body.getField "error").isObject then
        ((body.getField "error").getField "message").asStr
      else none)
    | _ => none

/-- The `if (bodyMessage) message = bodyMessage` pattern: replace `msg` by the
mined body message when that is truthy. -/
def overrideByBodyMessage (body : JsValue) (msg : String) : String :=
  match extractMessageFromBody body with
  | some m => if m = "" then msg else m
  | none => msg

/-- `extractAxiosError` from extractor.ts. -/
def extractAxiosError (error : JsValue) : StandardizedError :=
  let response := error.getField "response"
  let request := error.getField "request"
  let config := error.getField "config"
  let url := if config.truthy then (config.getField "url").asStr else none
  let method := if config.truthy then (config.getField "method").asStr else none
  let msg0 := (error.getField "message").strOrDefault "Unknown error"
  let code0 := (error.getField "code").asStr
  -- (message, statusCode, headers, body, code) after the three-way case split
  let r : String × Option Int × Option JsValue × Option JsValue × Option String :=
    if response.truthy then
      ((overrideByBodyMessage (response.getField "data") msg0),
        (response.getField "status").asNum,
        response.optField "headers",
        response.optField "data",
        code0)
    else if request.truthy then
      (match code0 with
       | some "ECONNABORTED" => ("Request timeout", some 408, none, none, code0)
       | some "ETIMEDOUT" => ("Request timeout", some 408, none, none, code0)
       | some "ECONNREFUSED" => ("Connection refused", some 503, none, none, code0)
       | some "ECONNRESET" => ("Connection reset", some 503, none, none, code0)
       | some "ENOTFOUND" => ("DNS lookup failed", some 503, none, none, code0)
       | some "ERR_NETWORK" => ("Network error", some 503, none, none, code0)
       | _ => ("No response received", some 503, none, none, code0))
    else if (error.getField "name").strEq "AbortError" ∨ code0 = some "ERR_CANCELED" then
      ("Request cancelled", some 499, none, none, some "ERR_CANCELED")
    else
      (msg0, none, none, none, code0)
  let classification := classifyError r.2.1 r.2.2.2.2
  { originalError := error
    message := r.1
    statusCode := r.2.1
    method := method.map String.toUpper
    url := url
    headers := r.2.2.1
    body := r.2.2.2.1
    code := r.2.2.2.2
    classification := classification
    isRetryable := isRetryableError classification r.2.1
    clientType := "axios" }

/-- `extractFetchError` from extractor.ts. -/
def extractFetchError (error : JsValue) : StandardizedError :=
  let message := (error.getField "message").strOrDefault "Fetch error"
  let code := ((error.getField "cause").getField "code").asStr
  let classification := classifyError none code
  { originalError := error
    message := message
    code := code
    classification := classification
    isRetryable := isRetryableError classification
    clientType := "fetch" }

/-- `extractGotError` from extractor.ts. -/
def extractGotError (error : JsValue) : StandardizedError :=
  let response := error.getField "response"
  let options := error.getField "options"
  let msg0 := (error.getField "message").strOrDefault "Got error"
  let code := (error.getField "code").asStr
  let r : String × Option Int × Option JsValue × Option JsValue :=
    if response.truthy then
      ((overrideByBodyMessage (response.getField "body") msg0),
        (response.getField "statusCode").asNum,
        response.optField "headers",
        response.optField "body")
    else
      (msg0, none, none, none)
  let classification := classifyError r.2.1 code
  { originalError := error
    message := r.1
    statusCode := r.2.1
    method := (options.getField "method").asStr
    url := (options.getField "url").asStr
    headers := r.2.2.1
    body := r.2.2.2
    code := code
    classification := classification
    isRetryable := isRetryableError classification r.2.1
    clientType := "got" }

/-- `extractUndiciError` from extractor.ts. -/
def extractUndiciError (error : JsValue) : StandardizedError :=
  let code := ((error.getField "cause").getField "code").asStr
  let message := (error.getField "message").strOrDefault "Undici error"
  let classification := classifyError none code
  { originalError := error
    message := message
    code := code
    classification := classification
    isRetryable := isRetryableError classification
    clientType := "undici" }

/-- `extractNodeFetchError` from extractor.ts. -/
def extractNodeFetchError (error : JsValue) : StandardizedError :=
  let type := (error.getField "type").asStr
  let message := (error.getField "message").strOrDefault "Node-fetch error"
  let code := (error.getField "code").asStr
  let statusCode : Option Int :=
    if type = some "request-timeout" ∨ type = some "body-timeout" then some 408
    else none
  let classification := classifyError statusCode code
  { originalError := error
    message := message
    statusCode := statusCode
    code := code
    classification := classification
    isRetryable := isRetryableError classification statusCode
    clientType := "node-fetch" }

/-- `extractGenericError` from extractor.ts. -/
def extractGenericError (error : JsValue) : StandardizedError :=
  match error with
  | .obj true _ =>
    -- `error instanceof Error`
    let statusCode := (jsOr (error.getField "statusCode") (error.getField "status")).asNum
    let code := (error.getField "code").asStr
    let classification := classifyError statusCode code
    { originalError := error
      message := ((error.getField "message").asStr).getD ""
      statusCode := statusCode
      code := code
      classification := classification
      isRetryable := isRetryableError classification statusCode
      clientType := "generic" }
  | .obj false _ =>
    -- `typeof error === 'object' && error !== null`
    let message :=
      match extractMessageFromBody error with
      | some m => if m = "" then "Unknown error" else m
      | none => "Unknown error"
    let statusCode := (jsOr (error.getField "statusCode") (error.getField "status")).asNum
    let code := (error.getField "code").asStr
    let classification := classifyError statusCode code
    { originalError := error
      message := message
      statusCode := statusCode
      code := code
      classification := classification
      isRetryable := isRetryableError classification statusCode
      clientType := "generic" }
  | _ =>
    { originalError := error
      message := jsToString error
      classification := .unknown
      isRetryable := false
      clientType := "generic" }

/-- The built-in `extractError` path from extractor.ts: detect the client and
dispatch to the per-client extraction routine. -/
def extractError (error : JsValue) : StandardizedError :=
  match detectClientType error with
  | "axios" => extractAxiosError error
  | "fetch" => extractFetchError error
  | "got" => extractGotError error
  | "undici" => extractUndiciError error
  | "node-fetch" => extractNodeFetchError error
  | _ => extractGenericError error

/-! # Custom extractor registry

The registry implementation (`registerExtractor` and the registry-consulting
prefix of `extractError`) is re-exported by `src/errors/index.ts` and
exercised by `tests/error-extraction.test.ts`, but its source file is not part
of the sources at hand; it is modelled here from the specification. -/

/-- The `ErrorExtractor` interface from src/types. -/
structure ErrorExtractor where
  name : String
  canHandle : JsValue → Bool
  extract : JsValue → StandardizedError

/-- Modelled from the spec: the process-wide ordered registry of error
extractors — "custom extractors are consulted before built-in detection in
registration order; the first whose `canHandle` returns true wins; otherwise
the built-in path runs."  (The concrete registry module is missing from the
sources; only its re-export and tests are present.) -/
def extractErrorWithRegistry : List ErrorExtractor → JsValue → StandardizedError
  | [], error => extractError error
  | ex :: rest, error =>
    if ex.canHandle error then ex.extract error
    else extractErrorWithRegistry rest error

/-- Modelled from the spec: `registerExtractor` — "names are unique (duplicate
registration fails)" and registration appends in order; `none` models the
thrown duplicate-name error. -/
def registerExtractor (registry : List ErrorExtractor) (ex : ErrorExtractor) :
    Option (List ErrorExtractor) :=
  if registry.any (fun e => e.name == ex.name) then none
  else some (registry ++ [ex])

/-! # Retry orchestrator (src/retry/index.ts)

The attempt loop of `retry(fn, options)` is embedded with the operation
modelled as a function `ops : Nat → Except E V` giving the outcome of each
attempt (index from 0), and the resolved `shouldRetry` predicate as
`pred : E → Nat → Bool`.  Backoff/jitter delays and callbacks do not influence
the control flow and are not part of the state.  The embedding returns the
final outcome together with the number of times the operation was invoked;
`none` models the `maxAttempts = 0` degenerate case where the loop body never
runs and the dangling `throw lastError` throws `undefined`. -/

/-- The loop of `retry` from retry/index.ts, starting at attempt index
`attempt` with `fuel = maxAttempts - attempt` iterations left.  In the source:
success returns immediately; on failure, when `!shouldRetry(error, attempt)`
or `attempt = maxAttempts - 1` (here: `fuel = 1`) the loop breaks and the last
captured error is thrown; otherwise it sleeps and continues. -/
def retryFuel {E V : Type} (ops : Nat → Except E V) (pred : E → Nat → Bool)
    (attempt : Nat) : Nat → Option (Except E V × Nat)
  | 0 => none
  | fuel + 1 =>
    match ops attempt with
    | .ok v => some (.ok v, attempt + 1)
    | .error e =>
      if pred e attempt && decide (0 < fuel) then
        retryFuel ops pred (attempt + 1) fuel
      else
        some (.error e, attempt + 1)

/-- `retry(fn, config)`: run the attempt loop from attempt 0 with
`config.maxAttempts` iterations available.  The second component of the
result is the number of invocations of the operation. -/
def retry {E V : Type} (ops : Nat → Except E V) (pred : E → Nat → Bool)
    (maxAttempts : Nat) : Option (Except E V × Nat) :=
  retryFuel ops pred 0 maxAttempts

/-! # Cancellation-aware retry (src/retry/index.ts `retryWithSignal`,
src/utils `sleepWithAbort`) -/

/-- Outcome of `retryWithSignal`: a value, the last operation error, or the
`AbortError` (`DOMException('Retry aborted', 'AbortError')`) sentinel. -/
inductive SignalResult (E V : Type) where
  | ok (v : V)
  | opError (e : E)
  | cancelled
deriving DecidableEq, Repr

/-- `sleepWithAbort(ms, signal)` from src/utils: rejects with `AbortError`
when the signal is already aborted on entry, rejects when the abort event
fires during the wait, and resolves otherwise.  The two boolean inputs are
the signal's state at entry and whether the abort fires during the wait. -/
def sleepWithAbort (abortedAtEntry : Bool) (abortFiresDuring : Bool) :
    Except Unit Unit :=
  if abortedAtEntry then .error ()
  else if abortFiresDuring then .error ()
  else .ok ()

/-- The abort signal's observable behaviour across the loop of
`retryWithSignal`: its `aborted` flag sampled at the check before attempt `i`,
at the check in the catch block after attempt `i` failed, at the entry of the
sleep following attempt `i`, and whether the abort event fires during that
sleep. -/
structure SignalTrace where
  beforeAttempt : Nat → Bool
  afterFail : Nat → Bool
  sleepEntry : Nat → Bool
  sleepDuring : Nat → Bool

/-- The loop of `retryWithSignal` from retry/index.ts: check `signal.aborted`
before the attempt, run the attempt, re-check `signal.aborted` in the catch
block, consult the predicate and remaining attempts, then
`await sleepWithAbort(delay, signal)` with its rejection mapped to
`AbortError`. -/
def retryWithSignalFuel {E V : Type} (ops : Nat → Except E V)
    (pred : E → Nat → Bool) (sig : SignalTrace) (attempt : Nat) :
    Nat → Option (SignalResult E V × Nat)
  | 0 => none
  | fuel + 1 =>
    if sig.beforeAttempt attempt then some (.cancelled, attempt)
    else
      match ops attempt with
      | Except.ok v => some (.ok v, attempt + 1)
      | Except.error e =>
        if sig.afterFail attempt then some (.cancelled, attempt + 1)
        else if pred e attempt && decide (0 < fuel) then
          match sleepWithAbort (sig.sleepEntry attempt) (sig.sleepDuring attempt) with
          | .error _ => some (.cancelled, attempt + 1)
          | .ok _ => retryWithSignalFuel ops pred sig (attempt + 1) fuel
        else some (.opError e, attempt + 1)

/-- `retryWithSignal(fn, signal, options)`; the second component of the result
is the number of invocations of the operation. -/
def retryWithSignal {E V : Type} (ops : Nat → Except E V)
    (pred : E → Nat → Bool) (sig : SignalTrace) (maxAttempts : Nat) :
    Option (SignalResult E V × Nat) :=
  retryWithSignalFuel ops pred sig 0 maxAttempts

/-! # Circuit breaker (src/circuit-breaker/circuit-breaker.ts)

`Date.now()` is modelled by passing the current time `now : Nat` explicitly
to every operation.  Comparisons involving time differences are computed in
`Int`, exactly as JS number arithmetic behaves on these integral inputs. -/

inductive CircuitState where
  | closed
  | «open»
  | halfOpen
deriving DecidableEq, Repr

/-- Sliding-window bucket (`Bucket` in circuit-breaker.ts). -/
structure Bucket where
  success : Nat
  failure : Nat
  timestamp : Nat
deriving DecidableEq, Repr

/-- `ResolvedCircuitConfig` (validated configuration). -/
structure ResolvedCircuitConfig where
  failureThreshold : Nat
  minimumRequests : Nat
  rollingWindow : Nat
  resetTimeout : Nat
  successThreshold : Nat
  halfOpenMaxRequests : Nat
  bucketCount : Nat
  bucketDuration : Nat
deriving DecidableEq, Repr

/-- `CircuitBreakerOptions` from src/types, polymorphic in the (unused) state
store type `σ`.  Numeric options are JS numbers, modelled as `Option Int`;
observer callbacks and the logger do not influence breaker state and are
omitted. -/
structure CircuitBreakerOptions (σ : Type) where
  failureThreshold : Option Int := none
  minimumRequests : Option Int := none
  rollingWindow : Option Int := none
  resetTimeout : Option Int := none
  successThreshold : Option Int := none
  halfOpenMaxRequests : Option Int := none
  bucketCount : Option Int := none
  stateStore : Option σ := none
  circuitId : Option String := none
  syncInterval : Option Int := none

/-- `clamp(value, min, max)` from circuit-breaker.ts:
`Math.max(min, Math.min(max, value))`. -/
def clamp (value lo hi : Int) : Int :=
  max lo (min hi value)

/-- `validateAndResolveConfig(options)` from circuit-breaker.ts, including the
defaults of `DEFAULT_CIRCUIT_CONFIG`. -/
def validateAndResolveConfig {σ : Type} (options : CircuitBreakerOptions σ) :
    ResolvedCircuitConfig :=
  let failureThreshold := clamp (options.failureThreshold.getD 50) 1 100
  let minimumRequests := max 1 (options.minimumRequests.getD 10)
  let rollingWindow := max 1000 (options.rollingWindow.getD 60000)
  let resetTimeout := max 100 (options.resetTimeout.getD 30000)
  let successThreshold := max 1 (options.successThreshold.getD 3)
  let halfOpenMaxRequests := max 1 (options.halfOpenMaxRequests.getD 1)
  let bucketCount := clamp (options.bucketCount.getD 10) 2 60
  { failureThreshold := failureThreshold.toNat
    minimumRequests := minimumRequests.toNat
    rollingWindow := rollingWindow.toNat
    resetTimeout := resetTimeout.toNat
    successThreshold := successThreshold.toNat
    halfOpenMaxRequests := halfOpenMaxRequests.toNat
    bucketCount := bucketCount.toNat
    bucketDuration := rollingWindow.toNat / bucketCount.toNat }

/-- The mutable state of a `CircuitBreaker` instance. -/
structure Breaker where
  state : CircuitState
  buckets : List Bucket
  lastFailureTime : Option Nat
  lastSuccessTime : Option Nat
  halfOpenSuccesses : Nat
  halfOpenActiveRequests : Nat
  transitionInProgress : Bool
deriving DecidableEq, Repr

/-- The freshly constructed breaker (constructor of `CircuitBreaker`). -/
def initialBreaker (cfg : ResolvedCircuitConfig) : Breaker :=
  { state := .closed
    buckets := List.replicate cfg.bucketCount ⟨0, 0, 0⟩
    lastFailureTime := none
    lastSuccessTime := none
    halfOpenSuccesses := 0
    halfOpenActiveRequests := 0
    transitionInProgress := false }

/-- `resetBuckets()`. -/
def resetBuckets (buckets : List Bucket) : List Bucket :=
  buckets.map (fun _ => ⟨0, 0, 0⟩)

/-- `transitionTo(newState)` (observer callbacks omitted — they do not touch
breaker state). -/
def transitionTo (b : Breaker) (newState : CircuitState) : Breaker :=
  if b.state = newState then b
  else
    let b := { b with state := newState }
    match newState with
    | .«open» => { b with halfOpenSuccesses := 0, halfOpenActiveRequests := 0 }
    | .closed =>
      { b with halfOpenSuccesses := 0, halfOpenActiveRequests := 0
               buckets := resetBuckets b.buckets }
    | .halfOpen => { b with halfOpenSuccesses := 0, halfOpenActiveRequests := 0 }

/-- `shouldAttemptReset()`: `if (!this.lastFailureTime) return true` is JS
truthiness, so a stored time of 0 also takes the early branch; otherwise
`Date.now() - lastFailureTime >= resetTimeout`. -/
def shouldAttemptReset (cfg : ResolvedCircuitConfig) (b : Breaker) (now : Nat) :
    Bool :=
  match b.lastFailureTime with
  | none => true
  | some t =>
    if t = 0 then true
    else decide ((cfg.resetTimeout : Int) ≤ (now : Int) - (t : Int))

/-- `checkStateTransition()`: lazily transition open → half-open when the
reset timeout has elapsed, guarded by the re-entrancy flag. -/
def checkStateTransition (cfg : ResolvedCircuitConfig) (b : Breaker) (now : Nat) :
    Breaker :=
  if b.transitionInProgress then b
  else if b.state = .«open» ∧ shouldAttemptReset cfg b now then
    transitionTo b .halfOpen
  else b

/-- `getState()`: evaluate deferred transitions, then return the state. -/
def getState (cfg : ResolvedCircuitConfig) (b : Breaker) (now : Nat) :
    Breaker × CircuitState :=
  let b := checkStateTransition cfg b now
  (b, b.state)

/-- A bucket counts towards metrics when `bucket.timestamp > now -
rollingWindow`. -/
def bucketLive (cfg : ResolvedCircuitConfig) (now : Nat) (bk : Bucket) : Bool :=
  decide ((now : Int) - (cfg.rollingWindow : Int) < (bk.timestamp : Int))

/-- Sum of `success` counts over live buckets (the loop in `getMetrics`). -/
def liveSuccesses (cfg : ResolvedCircuitConfig) (buckets : List Bucket)
    (now : Nat) : Nat :=
  (buckets.map (fun bk => if bucketLive cfg now bk then bk.success else 0)).sum

/-- Sum of `failure` counts over live buckets (the loop in `getMetrics`). -/
def liveFailures (cfg : ResolvedCircuitConfig) (buckets : List Bucket)
    (now : Nat) : Nat :=
  (buckets.map (fun bk => if bucketLive cfg now bk then bk.failure else 0)).sum

/-- `failureRate = totalRequests > 0 ? (failedRequests / totalRequests) * 100 : 0`. -/
def failureRateQ (failed total : Nat) : ℚ :=
  if 0 < total then (failed : ℚ) / (total : ℚ) * 100 else 0

/-- The comparison `failureRate >= failureThreshold` of `evaluateState`,
computed in exact integer arithmetic so that it is kernel-executable;
`rateAtLeastThreshold_eq_rateQ` below proves it equal to the literal rational
comparison. -/
def rateAtLeastThreshold (thr failed total : Nat) : Bool :=
  if 0 < total then decide (thr * total ≤ failed * 100) else decide (thr = 0)

/-- The integer form of the threshold comparison agrees with the rational
computation `failureRate >= failureThreshold` of the source. -/
theorem rateAtLeastThreshold_eq_rateQ (thr failed total : Nat) :
    rateAtLeastThreshold thr failed total
      = decide ((thr : ℚ) ≤ failureRateQ failed total) := by
  unfold rateAtLeastThreshold failureRateQ
  by_cases h : 0 < total
  · simp only [h, if_pos]
    have ht : (0 : ℚ) < (total : ℚ) := by exact_mod_cast h
    have : ((thr : ℚ) ≤ (failed : ℚ) / (total : ℚ) * 100)
        ↔ ((thr : Nat) * total ≤ failed * 100) := by
      rw [div_mul_eq_mul_div, le_div_iff₀ ht]
      constructor
      · intro hle
        exact_mod_cast hle
      · intro hle
        exact_mod_cast hle
    simp [this]
  · simp only [h, if_neg, if_false]
    have : ((thr : ℚ) ≤ 0) ↔ (thr = 0) := by
      constructor
      · intro hle
        have h0 : (0 : ℚ) ≤ (thr : ℚ) := by positivity
        have : (thr : ℚ) = 0 := le_antisymm hle h0
        exact_mod_cast this
      · intro h0
        simp [h0]
    simp [this]

/-- `CircuitMetrics` from src/types. -/
structure CircuitMetrics where
  state : CircuitState
  totalRequests : Nat
  failedRequests : Nat
  successfulRequests : Nat
  failureRate : ℚ
  lastFailureTime : Option Nat
  lastSuccessTime : Option Nat
deriving DecidableEq

/-- `getMetrics()`: sum live buckets, then build the record (whose `state`
field calls `getState()`, evaluating deferred transitions). -/
def getMetrics (cfg : ResolvedCircuitConfig) (b : Breaker) (now : Nat) :
    Breaker × CircuitMetrics :=
  let s := liveSuccesses cfg b.buckets now
  let f := liveFailures cfg b.buckets now
  let (b, st) := getState cfg b now
  (b, { state := st
        totalRequests := s + f
        failedRequests := f
        successfulRequests := s
        failureRate := failureRateQ f (s + f)
        lastFailureTime := b.lastFailureTime
        lastSuccessTime := b.lastSuccessTime })

/-- `evaluateState()`: only from `closed`; need `minimumRequests` before
evaluating; open when the failure rate reaches the threshold. -/
def evaluateState (cfg : ResolvedCircuitConfig) (b : Breaker) (now : Nat) :
    Breaker :=
  if b.state ≠ .closed then b
  else
    let (b, m) := getMetrics cfg b now
    if m.totalRequests < cfg.minimumRequests then b
    else if rateAtLeastThreshold cfg.failureThreshold m.failedRequests
        m.totalRequests then
      transitionTo b .«open»
    else b

/-- `getCurrentBucket()` followed by the increment of `recordSuccess` /
`recordFailure`: locate the bucket by `floor(now / bucketDuration) %
bucketCount`, reset it when stale (`now - timestamp >= bucketDuration`), then
increment one counter. -/
def recordToBuckets (cfg : ResolvedCircuitConfig) (buckets : List Bucket)
    (now : Nat) (isFailure : Bool) : List Bucket :=
  let idx := (now / cfg.bucketDuration) % cfg.bucketCount
  match buckets.get? idx with
  | none => buckets
  | some bk =>
    let bk :=
      if (cfg.bucketDuration : Int) ≤ (now : Int) - (bk.timestamp : Int) then
        ({ success := 0, failure := 0, timestamp := now } : Bucket)
      else bk
    let bk :=
      if isFailure then { bk with failure := bk.failure + 1 }
      else { bk with success := bk.success + 1 }
    buckets.set idx bk

/-- `recordSuccess()`. -/
def recordSuccess (cfg : ResolvedCircuitConfig) (b : Breaker) (now : Nat) :
    Breaker :=
  let b := { b with lastSuccessTime := some now }
  let b := { b with buckets := recordToBuckets cfg b.buckets now false }
  let b :=
    if b.state = .halfOpen then
      let b := { b with halfOpenSuccesses := b.halfOpenSuccesses + 1 }
      if cfg.successThreshold ≤ b.halfOpenSuccesses then transitionTo b .closed
      else b
    else b
  evaluateState cfg b now

/-- `recordFailure()`. -/
def recordFailure (cfg : ResolvedCircuitConfig) (b : Breaker) (now : Nat) :
    Breaker :=
  let b := { b with lastFailureTime := some now }
  let b := { b with buckets := recordToBuckets cfg b.buckets now true }
  let b := if b.state = .halfOpen then transitionTo b .«open» else b
  evaluateState cfg b now

/-- `forceState(state)`. -/
def forceState (b : Breaker) (s : CircuitState) (now : Nat) : Breaker :=
  let b := transitionTo b s
  match s with
  | .closed =>
    { b with buckets := resetBuckets b.buckets, halfOpenSuccesses := 0
             halfOpenActiveRequests := 0 }
  | .«open» => { b with lastFailureTime := some now }
  | .halfOpen => { b with halfOpenSuccesses := 0, halfOpenActiveRequests := 0 }

/-- `reset()`. -/
def resetBreaker (b : Breaker) : Breaker :=
  { state := .closed
    buckets := resetBuckets b.buckets
    lastFailureTime := none
    lastSuccessTime := none
    halfOpenSuccesses := 0
    halfOpenActiveRequests := 0
    transitionInProgress := b.transitionInProgress }

/-- Result of the admission phase of `execute(fn)`: either admitted (recording
whether a half-open probe slot was taken) or rejected with the
`CircuitBreakerOpenError` message. -/
inductive Admission where
  | admitted (wasHalfOpen : Bool)
  | rejected (message : String)
deriving DecidableEq, Repr

/-- The admission phase of `execute(fn)` (everything before `await fn()`):
evaluate the state; reject when open; in half-open reject when the probe
limit is reached, otherwise reserve a probe slot. -/
def executeBegin (cfg : ResolvedCircuitConfig) (b : Breaker) (now : Nat) :
    Breaker × Admission :=
  let (b, currentState) := getState cfg b now
  if currentState = .«open» then
    (b, .rejected "Circuit breaker is open")
  else if currentState = .halfOpen then
    if cfg.halfOpenMaxRequests ≤ b.halfOpenActiveRequests then
      (b, .rejected "Circuit breaker is half-open, probe limit reached")
    else
      ({ b with halfOpenActiveRequests := b.halfOpenActiveRequests + 1 },
        .admitted true)
  else (b, .admitted false)

/-- The completion phase of `execute(fn)` (the `try`/`catch`/`finally` after
`await fn()`): record the outcome, then release the probe slot
(`Math.max(0, halfOpenActiveRequests - 1)`) when the request had been
admitted in half-open state. -/
def executeEnd (cfg : ResolvedCircuitConfig) (b : Breaker)
    (wasHalfOpen success : Bool) (now : Nat) : Breaker :=
  let b := if success then recordSuccess cfg b now else recordFailure cfg b now
  if wasHalfOpen then
    { b with halfOpenActiveRequests := b.halfOpenActiveRequests - 1 }
  else b

/-! # Operation sequences over a breaker

Each public operation is one step; `execute` contributes two steps (admission
and completion) so that interleavings of concurrent `execute` calls are
expressible.  Every step carries its `Date.now()` value. -/

/-- One observable breaker operation. -/
inductive BreakerOp where
  | execBegin (now : Nat)
  | execEnd (wasHalfOpen success : Bool) (now : Nat)
  | recordSuccess (now : Nat)
  | recordFailure (now : Nat)
  | getState (now : Nat)
  | getMetrics (now : Nat)
  | forceState (s : CircuitState) (now : Nat)
  | reset
deriving DecidableEq, Repr

/-- The output of one step, as observed by the caller. -/
inductive BreakerOut where
  | unit
  | admission (a : Admission)
  | state (s : CircuitState)
  | metrics (m : CircuitMetrics)
deriving DecidableEq

/-- One step of the breaker, with its observable output. -/
def stepOut (cfg : ResolvedCircuitConfig) (b : Breaker) :
    BreakerOp → Breaker × BreakerOut
  | .execBegin now =>
    let (b, a) := executeBegin cfg b now
    (b, .admission a)
  | .execEnd wasHalfOpen success now => (executeEnd cfg b wasHalfOpen success now, .unit)
  | .recordSuccess now => (recordSuccess cfg b now, .unit)
  | .recordFailure now => (recordFailure cfg b now, .unit)
  | .getState now =>
    let (b, s) := getState cfg b now
    (b, .state s)
  | .getMetrics now =>
    let (b, m) := getMetrics cfg b now
    (b, .metrics m)
  | .forceState s now => (forceState b s now, .unit)
  | .reset => (resetBreaker b, .unit)

/-- One step of the breaker, state only. -/
def step (cfg : ResolvedCircuitConfig) (b : Breaker) (op : BreakerOp) : Breaker :=
  (stepOut cfg b op).1

/-- Run a sequence of operations from a given breaker state. -/
def runFrom (cfg : ResolvedCircuitConfig) (b : Breaker) (ops : List BreakerOp) :
    Breaker :=
  ops.foldl (step cfg) b

/-- Run a sequence of operations from the freshly constructed breaker. -/
def run (cfg : ResolvedCircuitConfig) (ops : List BreakerOp) : Breaker :=
  runFrom cfg (initialBreaker cfg) ops

/-- The trace of observable outputs of a run. -/
def traceFrom (cfg : ResolvedCircuitConfig) (b : Breaker) :
    List BreakerOp → List BreakerOut
  | [] => []
  | op :: rest =>
    let (b', o) := stepOut cfg b op
    o :: traceFrom cfg b' rest

/-- Trace of a run from the freshly constructed breaker. -/
def trace (cfg : ResolvedCircuitConfig) (ops : List BreakerOp) : List BreakerOut :=
  traceFrom cfg (initialBreaker cfg) ops

/-! # In-memory state store (src/circuit-breaker/state-store.ts)

JS records are mutable heap objects, so `CircuitBreakerState` values handed to
and returned by the store are modelled as references into an explicit heap:
a state-record cell holds scalar fields plus references to bucket cells.
This makes aliasing — the subject of the deep-copy contract — observable. -/

/-- A `CircuitBreakerState` record object on the heap; `buckets` holds
references to bucket objects. -/
structure StateRecordObj where
  state : CircuitState
  buckets : List Nat
  lastFailureTime : Option Nat
  lastSuccessTime : Option Nat
  halfOpenSuccesses : Nat
  halfOpenActiveRequests : Nat
deriving DecidableEq, Repr

/-- The heap: bucket objects and state-record objects, addressed by index. -/
structure JsHeap where
  bucketCells : List Bucket
  stateCells : List StateRecordObj
deriving DecidableEq, Repr

/-- Dereference a bucket object. -/
def derefBucket (h : JsHeap) (r : Nat) : Bucket :=
  (h.bucketCells[r]?).getD ⟨0, 0, 0⟩

/-- The value tree of a `CircuitBreakerState` (the record with its bucket
entries fully dereferenced). -/
structure CircuitBreakerState where
  state : CircuitState
  buckets : List Bucket
  lastFailureTime : Option Nat
  lastSuccessTime : Option Nat
  halfOpenSuccesses : Nat
  halfOpenActiveRequests : Nat
deriving DecidableEq, Repr

/-- Dereference a state record together with its buckets. -/
def derefState (h : JsHeap) (r : Nat) : Option CircuitBreakerState :=
  (h.stateCells[r]?).map fun o =>
    { state := o.state
      buckets := o.buckets.map (derefBucket h)
      lastFailureTime := o.lastFailureTime
      lastSuccessTime := o.lastSuccessTime
      halfOpenSuccesses := o.halfOpenSuccesses
      halfOpenActiveRequests := o.halfOpenActiveRequests }

/-- `Map.prototype.set`: replace the value under an existing key, else append. -/
def mapSet (m : List (String × Nat)) (k : String) (v : Nat) :
    List (String × Nat) :=
  if m.any (fun p => p.1 == k) then
    m.map (fun p => if p.1 == k then (k, v) else p)
  else m ++ [(k, v)]

/-- `Map.prototype.get` (with `?? null` modelled by `Option`). -/
def mapGet (m : List (String × Nat)) (k : String) : Option Nat :=
  (m.find? (fun p => p.1 == k)).map (fun p => p.2)

/-- `InMemoryStateStore`: `private states = new Map<string,
CircuitBreakerState>()`, holding references to state records. -/
structure InMemoryStateStore where
  states : List (String × Nat)
deriving DecidableEq, Repr

/-- `InMemoryStateStore.setState(circuitId, state)` from state-store.ts: store
a clone built with fresh scalar fields and `state.buckets.map(b => ({...b}))`
— freshly allocated copies of each bucket object. -/
def InMemoryStateStore.setState (store : InMemoryStateStore) (h : JsHeap)
    (circuitId : String) (ref : Nat) : InMemoryStateStore × JsHeap :=
  match h.stateCells[ref]? with
  | none => (store, h)
  | some o =>
    let newBucketRefs :=
      (List.range o.buckets.length).map (fun i => h.bucketCells.length + i)
    let copiedBuckets := o.buckets.map (derefBucket h)
    let newObj : StateRecordObj :=
      { state := o.state
        buckets := newBucketRefs
        lastFailureTime := o.lastFailureTime
        lastSuccessTime := o.lastSuccessTime
        halfOpenSuccesses := o.halfOpenSuccesses
        halfOpenActiveRequests := o.halfOpenActiveRequests }
    let newRef := h.stateCells.length
    (⟨mapSet store.states circuitId newRef⟩,
      ⟨h.bucketCells ++ copiedBuckets, h.stateCells ++ [newObj]⟩)

/-- `InMemoryStateStore.getState(circuitId)` from state-store.ts:
`return this.states.get(circuitId) ?? null` — the stored reference itself,
without any copying. -/
def InMemoryStateStore.getState (store : InMemoryStateStore)
    (circuitId : String) : Option Nat :=
  mapGet store.states circuitId

/-- `InMemoryStateStore.deleteState(circuitId)` from state-store.ts. -/
def InMemoryStateStore.deleteState (store : InMemoryStateStore)
    (circuitId : String) : InMemoryStateStore :=
  ⟨store.states.filter (fun p => p.1 != circuitId)⟩

/-- The value currently stored under `circuitId`, fully dereferenced. -/
def storedState (store : InMemoryStateStore) (h : JsHeap) (circuitId : String) :
    Option CircuitBreakerState :=
  (mapGet store.states circuitId).bind (derefState h)

/-- A mutation step performed by the caller on heap objects: overwrite a state
record cell or a bucket cell. -/
inductive CellWrite where
  | stateW (r : Nat) (o : StateRecordObj)
  | bucketW (r : Nat) (bk : Bucket)
deriving DecidableEq, Repr

/-- Apply one mutation to the heap. -/
def applyWrite (h : JsHeap) : CellWrite → JsHeap
  | .stateW r o => { h with stateCells := h.stateCells.set r o }
  | .bucketW r bk => { h with bucketCells := h.bucketCells.set r bk }

/-- Apply a sequence of mutations to the heap. -/
def applyWrites (h : JsHeap) (ws : List CellWrite) : JsHeap :=
  ws.foldl applyWrite h

/-- A mutation touches only objects that already existed on heap `h`
(in particular, the caller's record and its bucket entries). -/
def CellWrite.preexisting (h : JsHeap) : CellWrite → Prop
  | .stateW r _ => r < h.stateCells.length
  | .bucketW r _ => r < h.bucketCells.length

/-! # Claim theorems -/

/-- The backoff configuration of the claimed example sequence. -/
def demoBackoffConfig : BackoffConfig :=
  { initialDelay := 1000, maxDelay := 30000, multiplier := 2
    strategy := .exponential }

/-- C7: for every attempt `n ≥ 0`, `exponentialBackoff(n, config)` equals
`min(initialDelay * multiplier^n, maxDelay)`; with `initialDelay = 1000`,
`multiplier = 2`, `maxDelay = 30000` the sequence is
1000, 2000, 4000, 8000, 16000, 30000, and stays capped at 30000 for every
`n ≥ 5`. -/
theorem exponentialBackoff_spec :
    (∀ (config : BackoffConfig) (n : Nat),
      exponentialBackoff n config
        = min (config.initialDelay * config.multiplier ^ n) config.maxDelay) ∧
    (exponentialBackoff 0 demoBackoffConfig = 1000 ∧
     exponentialBackoff 1 demoBackoffConfig = 2000 ∧
     exponentialBackoff 2 demoBackoffConfig = 4000 ∧
     exponentialBackoff 3 demoBackoffConfig = 8000 ∧
     exponentialBackoff 4 demoBackoffConfig = 16000 ∧
     exponentialBackoff 5 demoBackoffConfig = 30000) ∧
    (∀ n : Nat, 5 ≤ n → exponentialBackoff n demoBackoffConfig = 30000) := by
  refine ⟨fun _ _ => rfl, ?_, ?_⟩
  · refine ⟨?_, ?_, ?_, ?_, ?_, ?_⟩ <;>
      · show min _ _ = _
        norm_num [demoBackoffConfig]
  · intro n hn
    have h32 : (32 : ℚ) ≤ 2 ^ n := by
      calc (32 : ℚ) = 2 ^ 5 := by norm_num
      _ ≤ 2 ^ n := pow_le_pow_right₀ (by norm_num) hn
    have h30 : (30000 : ℚ) ≤ 1000 * 2 ^ n := by nlinarith
    show min _ _ = _
    simp only [demoBackoffConfig]
    exact min_eq_right h30

/-- C7 witness: the cap holds at the concrete attempt 7. -/
theorem exponentialBackoff_spec_witness :
    exponentialBackoff 7 demoBackoffConfig = 30000 :=
  exponentialBackoff_spec.2.2 7 (by norm_num)

/-- The status-code table of the claim for C8: 429 → rateLimit; 401 or 403 →
authentication; 404 → notFound; 400 or 422 → validation; ≥500 → server;
≥400 → client; else unknown.  (Spec-side definition, to be compared with the
code path of `classifyError`.) -/
def classifyByStatusSpec : Option Int → ErrorClassification
  | none => .unknown
  | some s =>
    if s = 429 then .rateLimit
    else if s = 401 ∨ s = 403 then .authentication
    else if s = 404 then .notFound
    else if s = 400 ∨ s = 422 then .validation
    else if 500 ≤ s then .server
    else if 400 ≤ s then .client
    else .unknown

/-- C8: `classifyError` applies the fixed error-code tables first — the
timeout, network and cancelled code sets — and otherwise classifies by status
code exactly as the claimed table; and `isRetryableError(classification,
statusCode)` returns true exactly when the classification is network,
timeout, server or rateLimit, or the status code is one of 408, 429, 500,
502, 503, 504. -/
theorem classifyError_isRetryableError_spec :
    (∀ (s : Option Int) (c : String),
      c ∈ ["ETIMEDOUT", "ECONNABORTED", "UND_ERR_CONNECT_TIMEOUT"] →
      classifyError s (some c) = .timeout) ∧
    (∀ (s : Option Int) (c : String),
      c ∈ RETRYABLE_NETWORK_CODES →
      c ∉ ["ETIMEDOUT", "ECONNABORTED", "UND_ERR_CONNECT_TIMEOUT"] →
      classifyError s (some c) = .network) ∧
    (∀ (s : Option Int) (c : String),
      c ∈ ["ERR_CANCELED", "ABORT_ERR"] →
      classifyError s (some c) = .cancelled) ∧
    (∀ (s : Option Int) (c : Option String),
      (∀ c', c = some c' →
        c' ∉ RETRYABLE_NETWORK_CODES ∧ c' ∉ ["ERR_CANCELED", "ABORT_ERR"]) →
      classifyError s c = classifyByStatusSpec s) ∧
    (∀ (cl : ErrorClassification) (s : Option Int),
      isRetryableError cl s = true ↔
        (cl = .network ∨ cl = .timeout ∨ cl = .server ∨ cl = .rateLimit ∨
          ∃ v, s = some v ∧ v ∈ RETRYABLE_STATUS_CODES)) := by
  refine ⟨?_, ?_, ?_, ?_, ?_⟩
  · intro s c hc
    fin_cases hc <;> rfl
  · intro s c hc hnt
    fin_cases hc <;> simp_all <;> rfl
  · intro s c hc
    fin_cases hc <;> rfl
  · intro s c hc
    have hcode :
        (match c with
          | none => (none : Option ErrorClassification)
          | some c' =>
            if c' = "" then none
            else if c' = "ETIMEDOUT" ∨ c' = "ECONNABORTED" ∨
                c' = "UND_ERR_CONNECT_TIMEOUT" then some .timeout
            else if c' ∈ RETRYABLE_NETWORK_CODES then some .network
            else if c' = "ERR_CANCELED" ∨ c' = "ABORT_ERR" then some .cancelled
            else none) = none := by
      cases c with
      | none => rfl
      | some c' =>
        obtain ⟨hn, hcan⟩ := hc c' rfl
        have ht : ¬(c' = "ETIMEDOUT" ∨ c' = "ECONNABORTED" ∨
            c' = "UND_ERR_CONNECT_TIMEOUT") := by
          rintro (rfl | rfl | rfl) <;> exact hn (by decide)
        have hcan' : ¬(c' = "ERR_CANCELED" ∨ c' = "ABORT_ERR") := by
          rintro (rfl | rfl) <;> exact hcan (by decide)
        simp [ht, hn, hcan']
    unfold classifyError
    rw [hcode]
    cases s with
    | none => rfl
    | some v =>
      simp only [classifyByStatusSpec]
      by_cases h0 : v = 0
      · subst h0
        norm_num
      · simp only [h0, if_false]
  · intro cl s
    unfold isRetryableError
    split_ifs with h
    · simp only [true_iff]
      tauto
    · push_neg at h
      obtain ⟨h1, h2, h3, h4⟩ := h
      cases s with
      | none => simp [h1, h2, h3, h4]
      | some v =>
        simp only [h1, h2, h3, h4, false_or]
        constructor
        · intro hb
          have hmem : v ∈ RETRYABLE_STATUS_CODES := by
            have := (Bool.and_eq_true _ _).mp hb
            simpa using this.2
          exact ⟨v, rfl, hmem⟩
        · rintro ⟨v', hv', hmem⟩
          obtain rfl : v = v' := by injection hv'
          have hne : v ≠ 0 := by
            have hd : v = 408 ∨ v = 429 ∨ v = 500 ∨ v = 502 ∨ v = 503 ∨
                v = 504 := by
              simpa [RETRYABLE_STATUS_CODES] using hmem
            omega
          simp [hne, hmem]

/-- C8 witness: the network table fires first at a concrete input. -/
theorem classifyError_isRetryableError_spec_witness :
    classifyError (some 429) (some "EPIPE") = .network :=
  classifyError_isRetryableError_spec.2.1 (some 429) "EPIPE" (by decide) (by decide)

/-- C2: `extractError` consults the registered custom extractors first, in
registration order — the first whose `canHandle` accepts the error produces
the result — and only when none matches does the built-in path
(`detectClientType` plus the per-client routines, i.e. `extractError`) run;
registration appends to the registry when the name is free. -/
theorem extractError_registry_spec :
    (∀ (registry : List ErrorExtractor) (error : JsValue) (ex : ErrorExtractor),
      registry.find? (fun x => x.canHandle error) = some ex →
      extractErrorWithRegistry registry error = ex.extract error) ∧
    (∀ (registry : List ErrorExtractor) (error : JsValue),
      registry.find? (fun x => x.canHandle error) = none →
      extractErrorWithRegistry registry error = extractError error) ∧
    (∀ (registry : List ErrorExtractor) (ex : ErrorExtractor),
      registry.all (fun e => !(e.name == ex.name)) →
      registerExtractor registry ex = some (registry ++ [ex])) := by
  refine ⟨?_, ?_, ?_⟩
  · intro registry
    induction registry with
    | nil => intro error ex h; simp at h
    | cons hd tl ih =>
      intro error ex h
      by_cases hc : hd.canHandle error
      · simp only [List.find?, hc] at h
        obtain rfl : hd = ex := by injection h
        simp [extractErrorWithRegistry, hc]
      · simp only [List.find?, hc] at h
        simp only [extractErrorWithRegistry, hc, if_false]
        exact ih error ex h
  · intro registry
    induction registry with
    | nil => intro error _; rfl
    | cons hd tl ih =>
      intro error h
      by_cases hc : hd.canHandle error
      · simp only [List.find?, hc] at h
        exact absurd h (by simp)
      · simp only [List.find?, hc] at h
        simp only [extractErrorWithRegistry, hc, if_false]
        exact ih error h
  · intro registry ex h
    have : registry.any (fun e => e.name == ex.name) = false := by
      rw [← Bool.not_eq_true, List.any_eq_true]
      rintro ⟨e, he, heq⟩
      have := List.all_eq_true.mp h e he
      simp_all
    simp [registerExtractor, this]

/-- A concrete custom extractor for the C2 witness. -/
def demoExtractor : ErrorExtractor :=
  { name := "my-client"
    canHandle := fun e => (e.getField "isMine").truthy
    extract := fun e =>
      { originalError := e
        message := "mine"
        classification := .server
        isRetryable := true
        clientType := "my-client" } }

/-- C2 witness: with one matching registered extractor, its result wins. -/
theorem extractError_registry_spec_witness :
    extractErrorWithRegistry [demoExtractor]
        (JsValue.obj false [("isMine", .bool true)])
      = demoExtractor.extract (JsValue.obj false [("isMine", .bool true)]) :=
  extractError_registry_spec.1 [demoExtractor]
    (JsValue.obj false [("isMine", .bool true)]) demoExtractor rfl

/-- C3: with `maxAttempts ≥ 1`, `retry` invokes the operation between 1 and
`maxAttempts` times; every attempt before the last one failed with a
retry-approved error; when the run returns a value it is the value of the
last (first successful) invocation; when it throws, the thrown error is the
error of the last invocation, and the loop stopped there either because the
predicate refused to retry or because the attempts were exhausted. -/
theorem retry_spec {E V : Type} (ops : Nat → Except E V)
    (pred : E → Nat → Bool) (maxAttempts : Nat) (hmax : 1 ≤ maxAttempts) :
    ∃ r k, retry ops pred maxAttempts = some (r, k) ∧
      1 ≤ k ∧ k ≤ maxAttempts ∧
      (∀ j, j + 1 < k → ∃ e, ops j = .error e ∧ pred e j = true) ∧
      (∀ v, r = .ok v → ops (k - 1) = .ok v) ∧
      (∀ e, r = .error e →
        ops (k - 1) = .error e ∧ (pred e (k - 1) = false ∨ k = maxAttempts)) := by
  suffices h : ∀ (fuel attempt : Nat), 1 ≤ fuel →
      ∃ r k, retryFuel ops pred attempt fuel = some (r, k) ∧
        attempt + 1 ≤ k ∧ k ≤ attempt + fuel ∧
        (∀ j, attempt ≤ j → j + 1 < k → ∃ e, ops j = .error e ∧ pred e j = true) ∧
        (∀ v, r = .ok v → ops (k - 1) = .ok v) ∧
        (∀ e, r = .error e →
          ops (k - 1) = .error e ∧ (pred e (k - 1) = false ∨ k = attempt + fuel)) by
    obtain ⟨r, k, hrun, h1, h2, h3, h4, h5⟩ := h maxAttempts 0 hmax
    exact ⟨r, k, hrun, h1, by omega,
      fun j hj => h3 j (Nat.zero_le j) hj, h4, by simpa using h5⟩
  intro fuel
  induction fuel with
  | zero => intro attempt h; omega
  | succ n ih =>
    intro attempt _
    cases hop : ops attempt with
    | ok v =>
      refine ⟨.ok v, attempt + 1, ?_, le_refl _, by omega, ?_, ?_, ?_⟩
      · simp [retryFuel, hop]
      · intro j hj1 hj2; omega
      · intro v' hv; obtain rfl : v = v' := by injection hv
        simpa using hop
      · intro e he; exact absurd he (by simp)
    | error e =>
      by_cases hcond : pred e attempt = true ∧ 0 < n
      · obtain ⟨hp, hn⟩ := hcond
        obtain ⟨r, k, hrun, h1, h2, h3, h4, h5⟩ := ih (attempt + 1) hn
        refine ⟨r, k, ?_, by omega, by omega, ?_, h4, ?_⟩
        · simpa [retryFuel, hop, hp, hn] using hrun
        · intro j hj1 hj2
          rcases Nat.eq_or_lt_of_le hj1 with rfl | hlt
          · exact ⟨e, hop, hp⟩
          · exact h3 j hlt hj2
        · intro e' he'
          obtain ⟨ha, hb⟩ := h5 e' he'
          refine ⟨ha, ?_⟩
          rcases hb with hb | hb
          · exact Or.inl hb
          · right; omega
      · have hbool : (pred e attempt && decide (0 < n)) = false := by
          rcases Bool.eq_false_or_eq_true (pred e attempt) with ht | hf
          · simp only [ht, Bool.true_and, decide_eq_false_iff_not]
            intro hn
            exact hcond ⟨ht, hn⟩
          · simp [hf]
        refine ⟨.error e, attempt + 1, ?_, le_refl _, by omega, ?_, ?_, ?_⟩
        · simp [retryFuel, hop, hbool]
        · intro j hj1 hj2; omega
        · intro v hv; exact absurd hv (by simp)
        · intro e' he'
          obtain rfl : e = e' := by injection he'
          refine ⟨by simpa using hop, ?_⟩
          rcases Bool.eq_false_or_eq_true (pred e attempt) with ht | hf
          · right
            have hn0 : n = 0 := by
              by_contra hne
              exact hcond ⟨ht, Nat.pos_of_ne_zero hne⟩
            omega
          · left; simpa using hf

/-- Concrete operation outcomes for the C3 witness: the first two attempts
fail, the third succeeds. -/
def demoOps : Nat → Except String Nat :=
  fun i => if i = 2 then .ok 42 else .error "boom"

/-- C3 witness: the characterization instantiated at a concrete run. -/
theorem retry_spec_witness :
    ∃ r k, retry demoOps (fun _ _ => true) 3 = some (r, k) ∧
      1 ≤ k ∧ k ≤ 3 ∧
      (∀ j, j + 1 < k → ∃ e, demoOps j = .error e ∧ (fun _ _ => true) e j = true) ∧
      (∀ v, r = .ok v → demoOps (k - 1) = .ok v) ∧
      (∀ e, r = .error e →
        demoOps (k - 1) = .error e ∧ ((fun _ _ => true) e (k - 1) = false ∨ k = 3)) :=
  retry_spec demoOps (fun _ _ => true) 3 (by decide)

/-- C4: `retryWithSignal` raises the `AbortError` cancellation sentinel
without invoking the operation when the signal is already aborted before any
attempt; more generally the signal is checked before each attempt and before
each inter-attempt sleep, and an abort that is set at sleep entry or fires
during the sleep short-circuits with the cancellation sentinel instead of
continuing to the next attempt. -/
theorem retryWithSignal_abort_spec {E V : Type} :
    (∀ (ops : Nat → Except E V) (pred : E → Nat → Bool) (sig : SignalTrace)
        (maxAttempts : Nat), 1 ≤ maxAttempts → sig.beforeAttempt 0 = true →
      retryWithSignal ops pred sig maxAttempts = some (.cancelled, 0)) ∧
    (∀ (ops : Nat → Except E V) (pred : E → Nat → Bool) (sig : SignalTrace)
        (attempt fuel : Nat), sig.beforeAttempt attempt = true →
      retryWithSignalFuel ops pred sig attempt (fuel + 1)
        = some (.cancelled, attempt)) ∧
    (∀ (ops : Nat → Except E V) (pred : E → Nat → Bool) (sig : SignalTrace)
        (attempt fuel : Nat) (e : E),
      ops attempt = .error e → sig.beforeAttempt attempt = false →
      sig.afterFail attempt = false → pred e attempt = true → 0 < fuel →
      sig.sleepEntry attempt = true →
      retryWithSignalFuel ops pred sig attempt (fuel + 1)
        = some (.cancelled, attempt + 1)) ∧
    (∀ (ops : Nat → Except E V) (pred : E → Nat → Bool) (sig : SignalTrace)
        (attempt fuel : Nat) (e : E),
      ops attempt = .error e → sig.beforeAttempt attempt = false →
      sig.afterFail attempt = false → pred e attempt = true → 0 < fuel →
      sig.sleepEntry attempt = false → sig.sleepDuring attempt = true →
      retryWithSignalFuel ops pred sig attempt (fuel + 1)
        = some (.cancelled, attempt + 1)) := by
  refine ⟨?_, ?_, ?_, ?_⟩
  · intro ops pred sig maxAttempts hmax hab
    obtain ⟨f, rfl⟩ : ∃ f, maxAttempts = f + 1 :=
      ⟨maxAttempts - 1, by omega⟩
    simp [retryWithSignal, retryWithSignalFuel, hab]
  · intro ops pred sig attempt fuel hab
    simp [retryWithSignalFuel, hab]
  · intro ops pred sig attempt fuel e hop hb ha hp hf hs
    simp [retryWithSignalFuel, hop, hb, ha, hp, hf, hs, sleepWithAbort]
  · intro ops pred sig attempt fuel e hop hb ha hp hf hs hd
    simp [retryWithSignalFuel, hop, hb, ha, hp, hf, hs, hd, sleepWithAbort]

/-- An always-aborted signal trace for the C4 witness. -/
def demoAbortedSig : SignalTrace :=
  { beforeAttempt := fun _ => true
    afterFail := fun _ => false
    sleepEntry := fun _ => false
    sleepDuring := fun _ => false }

/-- C4 witness: an already-aborted signal cancels with zero invocations. -/
theorem retryWithSignal_abort_spec_witness :
    retryWithSignal (fun _ => (.error "e" : Except String Nat))
        (fun _ _ => true) demoAbortedSig 3 = some (.cancelled, 0) :=
  retryWithSignal_abort_spec.1 (fun _ => .error "e") (fun _ _ => true)
    demoAbortedSig 3 (by decide) rfl

/-- Looking up the key just written by `Map.set` yields the written value. -/
theorem mapGet_mapSet (m : List (String × Nat)) (k : String) (v : Nat) :
    mapGet (mapSet m k v) k = some v := by
  induction m with
  | nil => simp [mapSet, mapGet, List.find?]
  | cons hd tl ih =>
    by_cases hk : hd.1 == k
    · have hk' : hd.1 = k := by simpa using hk
      have hset : mapSet (hd :: tl) k v
          = (k, v) :: tl.map (fun p => if p.1 == k then (k, v) else p) := by
        simp [mapSet, List.any_cons, hk, hk']
      rw [hset]
      simp [mapGet, List.find?]
    · have hk' : ¬hd.1 = k := by simpa using hk
      by_cases ha : tl.any (fun p => p.1 == k)
      · have hset : mapSet (hd :: tl) k v = hd :: mapSet tl k v := by
          simp [mapSet, List.any_cons, hk, hk', ha]
        rw [hset]
        simpa [mapGet, List.find?, hk] using ih
      · have hset : mapSet (hd :: tl) k v = hd :: (tl ++ [(k, v)]) := by
          simp [mapSet, List.any_cons, hk, hk', ha]
        have htl : mapSet tl k v = tl ++ [(k, v)] := by
          simp [mapSet, ha]
        rw [hset]
        rw [htl] at ih
        simpa [mapGet, List.find?, hk] using ih

/-- Mutations that never target state cell `j` leave it unchanged. -/
theorem applyWrites_stateCells (ws : List CellWrite) :
    ∀ (h : JsHeap) (j : Nat),
    (∀ r o, CellWrite.stateW r o ∈ ws → r ≠ j) →
    (applyWrites h ws).stateCells[j]? = h.stateCells[j]? := by
  induction ws with
  | nil => intro h j _; rfl
  | cons w rest ih =>
    intro h j hw
    have hstep : applyWrites h (w :: rest) = applyWrites (applyWrite h w) rest := by
      simp [applyWrites]
    rw [hstep, ih (applyWrite h w) j
      (fun r o hm => hw r o (List.mem_cons_of_mem _ hm))]
    cases w with
    | stateW r o =>
      have hne : r ≠ j := hw r o (List.mem_cons_self _ _)
      simp [applyWrite, List.getElem?_set_ne hne]
    | bucketW r bk => rfl

/-- Mutations that never target bucket cell `j` leave it unchanged. -/
theorem applyWrites_bucketCells (ws : List CellWrite) :
    ∀ (h : JsHeap) (j : Nat),
    (∀ r bk, CellWrite.bucketW r bk ∈ ws → r ≠ j) →
    (applyWrites h ws).bucketCells[j]? = h.bucketCells[j]? := by
  induction ws with
  | nil => intro h j _; rfl
  | cons w rest ih =>
    intro h j hw
    have hstep : applyWrites h (w :: rest) = applyWrites (applyWrite h w) rest := by
      simp [applyWrites]
    rw [hstep, ih (applyWrite h w) j
      (fun r bk hm => hw r bk (List.mem_cons_of_mem _ hm))]
    cases w with
    | stateW r o => rfl
    | bucketW r bk =>
      have hne : r ≠ j := hw r bk (List.mem_cons_self _ _)
      simp [applyWrite, List.getElem?_set_ne hne]

/-- Two heaps that agree on state cell `r` and on the bucket cells referenced
by the record stored there dereference to the same value. -/
theorem derefState_eq_of (hA hB : JsHeap) (r : Nat)
    (hs : hA.stateCells[r]? = hB.stateCells[r]?)
    (hb : ∀ o, hB.stateCells[r]? = some o →
      ∀ x ∈ o.buckets, hA.bucketCells[x]? = hB.bucketCells[x]?) :
    derefState hA r = derefState hB r := by
  unfold derefState
  rw [hs]
  cases hcase : hB.stateCells[r]? with
  | none => rfl
  | some o =>
    simp only [Option.map_some']
    have : o.buckets.map (derefBucket hA) = o.buckets.map (derefBucket hB) :=
      List.map_congr_left (fun x hx => by
        unfold derefBucket
        rw [hb o hcase x hx])
    rw [this]

/-- The concrete heap of the C1 counterexample: one bucket object holding 5
successes and one `CircuitBreakerState` record referencing it. -/
def c1Heap : JsHeap :=
  ⟨[⟨5, 0, 0⟩], [⟨.closed, [0], none, none, 0, 0⟩]⟩

/-- Store and heap after `setState('a', s)` on an empty store. -/
def c1StorePair : InMemoryStateStore × JsHeap :=
  InMemoryStateStore.setState ⟨[]⟩ c1Heap "a" 0

/-- C1 counterexample: `getState('a')` returns the stored record itself (the
reference stored in the map), and mutating that record — here setting
`halfOpenSuccesses` to 7 through the returned reference — changes the stored
state, contrary to the claim that mutations of the record returned by
`getState` leave the stored state unchanged. -/
theorem inMemoryStateStore_getState_no_deep_copy :
    c1StorePair.1.getState "a" = some 1 ∧
    storedState c1StorePair.1
        (applyWrites c1StorePair.2
          [.stateW 1 ⟨.closed, [1], none, none, 7, 0⟩]) "a"
      ≠ storedState c1StorePair.1 c1StorePair.2 "a" := by
  decide

/-- C1 amended: `InMemoryStateStore` deep-copies on `setState` only — after
`setState(id, s)`, any mutations touching only objects that existed before
the call (in particular the caller's record `s` and its bucket entries) leave
the stored state unchanged — while `getState(id)` returns the stored record
itself without copying (the very reference held in the map), so mutations to
the returned record reach the stored state. -/
theorem inMemoryStateStore_deep_copy_amended :
    (∀ (store : InMemoryStateStore) (h : JsHeap) (id : String) (ref : Nat),
      ref < h.stateCells.length →
      ∀ ws : List CellWrite, (∀ w ∈ ws, w.preexisting h) →
        storedState (store.setState h id ref).1
            (applyWrites (store.setState h id ref).2 ws) id
          = storedState (store.setState h id ref).1 (store.setState h id ref).2 id) ∧
    (∀ (store : InMemoryStateStore) (id : String),
      store.getState id = mapGet store.states id) := by
  refine ⟨?_, fun _ _ => rfl⟩
  intro store h id ref href ws hws
  obtain ⟨o, ho⟩ : ∃ o, h.stateCells[ref]? = some o :=
    ⟨_, List.getElem?_eq_getElem href⟩
  have hset : store.setState h id ref =
      (⟨mapSet store.states id h.stateCells.length⟩,
        ⟨h.bucketCells ++ o.buckets.map (derefBucket h),
          h.stateCells ++
            [{ state := o.state
               buckets := (List.range o.buckets.length).map
                 (fun i => h.bucketCells.length + i)
               lastFailureTime := o.lastFailureTime
               lastSuccessTime := o.lastSuccessTime
               halfOpenSuccesses := o.halfOpenSuccesses
               halfOpenActiveRequests := o.halfOpenActiveRequests }]⟩) := by
    simp [InMemoryStateStore.setState, ho]
  rw [hset]
  simp only [storedState, mapGet_mapSet, Option.some_bind]
  apply derefState_eq_of
  · apply applyWrites_stateCells
    intro r ob hm
    have := hws _ hm
    simp only [CellWrite.preexisting] at this
    omega
  · intro o' ho' x hx
    have hobj :
        (JsHeap.mk (h.bucketCells ++ o.buckets.map (derefBucket h))
            (h.stateCells ++
              [{ state := o.state
                 buckets := (List.range o.buckets.length).map
                   (fun i => h.bucketCells.length + i)
                 lastFailureTime := o.lastFailureTime
                 lastSuccessTime := o.lastSuccessTime
                 halfOpenSuccesses := o.halfOpenSuccesses
                 halfOpenActiveRequests := o.halfOpenActiveRequests }])).stateCells[h.stateCells.length]?
          = some
            { state := o.state
              buckets := (List.range o.buckets.length).map
                (fun i => h.bucketCells.length + i)
              lastFailureTime := o.lastFailureTime
              lastSuccessTime := o.lastSuccessTime
              halfOpenSuccesses := o.halfOpenSuccesses
              halfOpenActiveRequests := o.halfOpenActiveRequests } :=
      List.getElem?_concat_length _ _
    rw [hobj] at ho'
    obtain rfl : _ = o' := by injection ho'
    simp only [List.mem_map, List.mem_range] at hx
    obtain ⟨i, _, rfl⟩ := hx
    apply applyWrites_bucketCells
    intro r bk hm
    have := hws _ hm
    simp only [CellWrite.preexisting] at this
    omega

/-! ## Structural lemmas about the breaker state machine -/

/-- Some bucket of the ring records a failure. -/
def HasFailure (buckets : List Bucket) : Prop :=
  ∃ bk ∈ buckets, 0 < bk.failure

theorem transitionTo_state (b : Breaker) (s : CircuitState) :
    (transitionTo b s).state = s := by
  unfold transitionTo
  split
  · next h => exact h
  · cases s <;> rfl

theorem transitionTo_lastFailureTime (b : Breaker) (s : CircuitState) :
    (transitionTo b s).lastFailureTime = b.lastFailureTime := by
  unfold transitionTo
  split
  · rfl
  · cases s <;> rfl

theorem transitionTo_lastSuccessTime (b : Breaker) (s : CircuitState) :
    (transitionTo b s).lastSuccessTime = b.lastSuccessTime := by
  unfold transitionTo
  split
  · rfl
  · cases s <;> rfl

theorem transitionTo_hoar_le (b : Breaker) (s : CircuitState) :
    (transitionTo b s).halfOpenActiveRequests ≤ b.halfOpenActiveRequests := by
  unfold transitionTo
  split
  · exact le_refl _
  · cases s <;> simp

theorem transitionTo_buckets_of_ne_closed (b : Breaker) (s : CircuitState)
    (h : s ≠ .closed) : (transitionTo b s).buckets = b.buckets := by
  unfold transitionTo
  split
  · rfl
  · cases s with
    | closed => exact absurd rfl h
    | «open» => rfl
    | halfOpen => rfl

theorem resetBuckets_no_failure (buckets : List Bucket) :
    ¬ HasFailure (resetBuckets buckets) := by
  rintro ⟨bk, hmem, hpos⟩
  simp only [resetBuckets, List.mem_map] at hmem
  obtain ⟨_, _, rfl⟩ := hmem
  simp at hpos

theorem transitionTo_hasFailure (b : Breaker) (s : CircuitState)
    (h : HasFailure (transitionTo b s).buckets) : HasFailure b.buckets := by
  by_cases hs : s = .closed
  · subst hs
    unfold transitionTo at h
    split at h
    · exact h
    · exact absurd h (resetBuckets_no_failure _)
  · rwa [transitionTo_buckets_of_ne_closed b s hs] at h

theorem checkStateTransition_eq_of_ne_open (cfg : ResolvedCircuitConfig)
    (b : Breaker) (now : Nat) (h : b.state ≠ .«open») :
    checkStateTransition cfg b now = b := by
  unfold checkStateTransition
  split_ifs with h1 h2
  · rfl
  · exact absurd h2.1 h
  · rfl

theorem checkStateTransition_lastFailureTime (cfg : ResolvedCircuitConfig)
    (b : Breaker) (now : Nat) :
    (checkStateTransition cfg b now).lastFailureTime = b.lastFailureTime := by
  unfold checkStateTransition
  split_ifs <;> simp [transitionTo_lastFailureTime]

theorem checkStateTransition_buckets (cfg : ResolvedCircuitConfig)
    (b : Breaker) (now : Nat) :
    (checkStateTransition cfg b now).buckets = b.buckets := by
  unfold checkStateTransition
  split_ifs <;> simp [transitionTo_buckets_of_ne_closed]

theorem checkStateTransition_hoar_le (cfg : ResolvedCircuitConfig)
    (b : Breaker) (now : Nat) :
    (checkStateTransition cfg b now).halfOpenActiveRequests
      ≤ b.halfOpenActiveRequests := by
  unfold checkStateTransition
  split_ifs <;> simp [transitionTo_hoar_le]

theorem checkStateTransition_state_open (cfg : ResolvedCircuitConfig)
    (b : Breaker) (now : Nat)
    (h : (checkStateTransition cfg b now).state = .«open») :
    b.state = .«open» := by
  unfold checkStateTransition at h
  split_ifs at h with h1 h2
  · exact h
  · rw [transitionTo_state] at h
    exact absurd h (by decide)
  · exact h

theorem getMetrics_eq (cfg : ResolvedCircuitConfig) (b : Breaker) (now : Nat) :
    getMetrics cfg b now =
      (checkStateTransition cfg b now,
        { state := (checkStateTransition cfg b now).state
          totalRequests := liveSuccesses cfg b.buckets now
            + liveFailures cfg b.buckets now
          failedRequests := liveFailures cfg b.buckets now
          successfulRequests := liveSuccesses cfg b.buckets now
          failureRate := failureRateQ (liveFailures cfg b.buckets now)
            (liveSuccesses cfg b.buckets now + liveFailures cfg b.buckets now)
          lastFailureTime := (checkStateTransition cfg b now).lastFailureTime
          lastSuccessTime := (checkStateTransition cfg b now).lastSuccessTime }) :=
  rfl

theorem evaluateState_eq_of_ne_closed (cfg : ResolvedCircuitConfig)
    (b : Breaker) (now : Nat) (h : b.state ≠ .closed) :
    evaluateState cfg b now = b := by
  unfold evaluateState
  simp [h]

theorem evaluateState_closed_eq (cfg : ResolvedCircuitConfig) (b : Breaker)
    (now : Nat) (hb : b.state = .closed) :
    evaluateState cfg b now =
      (if liveSuccesses cfg b.buckets now + liveFailures cfg b.buckets now
          < cfg.minimumRequests then b
       else if rateAtLeastThreshold cfg.failureThreshold
           (liveFailures cfg b.buckets now)
           (liveSuccesses cfg b.buckets now + liveFailures cfg b.buckets now) then
         transitionTo b .«open»
       else b) := by
  have hcst : checkStateTransition cfg b now = b :=
    checkStateTransition_eq_of_ne_open cfg b now (by simp [hb])
  unfold evaluateState
  rw [getMetrics_eq]
  simp only [hb, ne_eq, not_true_eq_false, if_false, hcst]

theorem evaluateState_lastFailureTime (cfg : ResolvedCircuitConfig)
    (b : Breaker) (now : Nat) :
    (evaluateState cfg b now).lastFailureTime = b.lastFailureTime := by
  by_cases hb : b.state = .closed
  · rw [evaluateState_closed_eq cfg b now hb]
    split_ifs <;> simp [transitionTo_lastFailureTime]
  · rw [evaluateState_eq_of_ne_closed cfg b now hb]

theorem evaluateState_hoar_le (cfg : ResolvedCircuitConfig) (b : Breaker)
    (now : Nat) :
    (evaluateState cfg b now).halfOpenActiveRequests
      ≤ b.halfOpenActiveRequests := by
  by_cases hb : b.state = .closed
  · rw [evaluateState_closed_eq cfg b now hb]
    split_ifs <;> simp [transitionTo_hoar_le]
  · rw [evaluateState_eq_of_ne_closed cfg b now hb]

theorem evaluateState_hasFailure (cfg : ResolvedCircuitConfig) (b : Breaker)
    (now : Nat) (h : HasFailure (evaluateState cfg b now).buckets) :
    HasFailure b.buckets := by
  by_cases hb : b.state = .closed
  · rw [evaluateState_closed_eq cfg b now hb] at h
    split_ifs at h
    · exact h
    · exact transitionTo_hasFailure _ _ h
    · exact h
  · rwa [evaluateState_eq_of_ne_closed cfg b now hb] at h

/-- When the threshold is at least 1 percent (as validation guarantees), a
true threshold comparison implies at least one recorded failure. -/
theorem rate_pos_failed (thr f total : Nat) (hthr : 1 ≤ thr)
    (h : rateAtLeastThreshold thr f total = true) : 0 < f := by
  unfold rateAtLeastThreshold at h
  split_ifs at h with ht
  · rcases Nat.eq_zero_or_pos f with rfl | hf
    · simp only [Nat.zero_mul, decide_eq_true_eq, Nat.le_zero] at h
      rcases Nat.mul_eq_zero.mp h with h0 | h0 <;> omega
    · exact hf
  · simp only [decide_eq_true_eq] at h
    omega

theorem hasFailure_of_liveFailures_pos (cfg : ResolvedCircuitConfig)
    (now : Nat) :
    ∀ bks : List Bucket, 0 < liveFailures cfg bks now → HasFailure bks := by
  intro bks
  induction bks with
  | nil => intro h; simp [liveFailures] at h
  | cons hd tl ih =>
    intro h
    simp only [liveFailures, List.map_cons, List.sum_cons] at h
    by_cases hl : bucketLive cfg now hd
    · simp only [hl, if_true] at h
      rcases Nat.eq_zero_or_pos hd.failure with h0 | h0
      · simp only [h0, Nat.zero_add] at h
        obtain ⟨bk, hmem, hpos⟩ := ih h
        exact ⟨bk, List.mem_cons_of_mem _ hmem, hpos⟩
      · exact ⟨hd, List.mem_cons_self _ _, h0⟩
    · simp only [hl, if_false, Bool.false_eq_true, Nat.zero_add] at h
      obtain ⟨bk, hmem, hpos⟩ := ih h
      exact ⟨bk, List.mem_cons_of_mem _ hmem, hpos⟩

/-- A success recording introduces no new failing bucket. -/
theorem recordToBuckets_hasFailure (cfg : ResolvedCircuitConfig)
    (bks : List Bucket) (now : Nat)
    (h : HasFailure (recordToBuckets cfg bks now false)) : HasFailure bks := by
  unfold recordToBuckets at h
  dsimp only at h
  cases hidx : bks.get? ((now / cfg.bucketDuration) % cfg.bucketCount) with
  | none => rwa [hidx] at h
  | some bk =>
    rw [hidx] at h
    dsimp only at h
    simp only [Bool.false_eq_true, if_false] at h
    obtain ⟨x, hx, hpos⟩ := h
    rcases List.mem_or_eq_of_mem_set hx with hmem | rfl
    · exact ⟨x, hmem, hpos⟩
    · have hbkmem : bk ∈ bks := by
        have := hidx
        rw [List.get?_eq_getElem?] at this
        exact List.getElem?_mem this
      split_ifs at hpos with hstale
      · simp at hpos
      · exact ⟨bk, hbkmem, by simpa using hpos⟩

/-! ## Reachability invariants -/

/-- The key invariant behind C10: whenever the breaker is open — or any
bucket records a failure, which is what can drive it open — a positive
`lastFailureTime` is on record. -/
def OpenImpliesFailure (b : Breaker) : Prop :=
  (b.state = .«open» ∨ HasFailure b.buckets) →
    ∃ t, b.lastFailureTime = some t ∧ 0 < t

theorem oif_of_fields (b b' : Breaker) (h : OpenImpliesFailure b)
    (hst : b'.state = .«open» → b.state = .«open»)
    (hfl : HasFailure b'.buckets → HasFailure b.buckets)
    (hlft : b'.lastFailureTime = b.lastFailureTime) :
    OpenImpliesFailure b' := by
  intro hante
  rw [hlft]
  apply h
  rcases hante with h1 | h1
  · exact Or.inl (hst h1)
  · exact Or.inr (hfl h1)

theorem oif_checkStateTransition (cfg : ResolvedCircuitConfig) (b : Breaker)
    (now : Nat) (h : OpenImpliesFailure b) :
    OpenImpliesFailure (checkStateTransition cfg b now) :=
  oif_of_fields b _ h (checkStateTransition_state_open cfg b now)
    (by rw [checkStateTransition_buckets]; exact id)
    (checkStateTransition_lastFailureTime cfg b now)

theorem oif_evaluateState (cfg : ResolvedCircuitConfig) (b : Breaker)
    (now : Nat) (hthr : 1 ≤ cfg.failureThreshold) (h : OpenImpliesFailure b) :
    OpenImpliesFailure (evaluateState cfg b now) := by
  by_cases hb : b.state = .closed
  · rw [evaluateState_closed_eq cfg b now hb]
    split_ifs with h1 h2
    · exact h
    · intro _
      rw [transitionTo_lastFailureTime]
      apply h
      right
      exact hasFailure_of_liveFailures_pos cfg now _
        (rate_pos_failed _ _ _ hthr h2)
    · exact h
  · rwa [evaluateState_eq_of_ne_closed cfg b now hb]

theorem recordFailure_lastFailureTime (cfg : ResolvedCircuitConfig)
    (b : Breaker) (now : Nat) :
    (recordFailure cfg b now).lastFailureTime = some now := by
  unfold recordFailure
  dsimp only
  rw [evaluateState_lastFailureTime]
  split_ifs <;> simp [transitionTo_lastFailureTime]

theorem oif_recordFailure (cfg : ResolvedCircuitConfig) (b : Breaker)
    (now : Nat) (hnow : 0 < now) :
    OpenImpliesFailure (recordFailure cfg b now) := by
  intro _
  exact ⟨now, recordFailure_lastFailureTime cfg b now, hnow⟩

theorem oif_recordSuccess (cfg : ResolvedCircuitConfig) (b : Breaker)
    (now : Nat) (hthr : 1 ≤ cfg.failureThreshold) (h : OpenImpliesFailure b) :
    OpenImpliesFailure (recordSuccess cfg b now) := by
  unfold recordSuccess
  dsimp only
  apply oif_evaluateState cfg _ now hthr
  split_ifs with hho hsucc
  · refine oif_of_fields b _ h ?_ ?_ ?_
    · intro hst
      rw [transitionTo_state] at hst
      exact absurd hst (by decide)
    · intro hfl
      have hfl' : HasFailure (recordToBuckets cfg b.buckets now false) :=
        transitionTo_hasFailure _ _ hfl
      exact recordToBuckets_hasFailure cfg _ now hfl'
    · rw [transitionTo_lastFailureTime]
  · refine oif_of_fields b _ h ?_ ?_ ?_
    · intro hst
      exact hst
    · intro hfl
      have hfl' : HasFailure (recordToBuckets cfg b.buckets now false) := hfl
      exact recordToBuckets_hasFailure cfg _ now hfl'
    · rfl
  · refine oif_of_fields b _ h ?_ ?_ ?_
    · intro hst
      exact hst
    · intro hfl
      have hfl' : HasFailure (recordToBuckets cfg b.buckets now false) := hfl
      exact recordToBuckets_hasFailure cfg _ now hfl'
    · rfl

theorem oif_executeBegin (cfg : ResolvedCircuitConfig) (b : Breaker)
    (now : Nat) (h : OpenImpliesFailure b) :
    OpenImpliesFailure (executeBegin cfg b now).1 := by
  unfold executeBegin getState
  dsimp only
  have hcst := oif_checkStateTransition cfg b now h
  split_ifs with h1 h2 h3
  · exact hcst
  · exact hcst
  · refine oif_of_fields _ _ hcst ?_ ?_ ?_
    · intro hst; exact hst
    · intro hfl; exact hfl
    · rfl
  · exact hcst

theorem oif_set_hoar (b : Breaker) (n : Nat) (h : OpenImpliesFailure b) :
    OpenImpliesFailure { b with halfOpenActiveRequests := n } :=
  oif_of_fields b _ h id id rfl

theorem oif_executeEnd (cfg : ResolvedCircuitConfig) (b : Breaker)
    (wasHalfOpen success : Bool) (now : Nat) (hthr : 1 ≤ cfg.failureThreshold)
    (hnow : 0 < now) (h : OpenImpliesFailure b) :
    OpenImpliesFailure (executeEnd cfg b wasHalfOpen success now) := by
  unfold executeEnd
  cases success <;> cases wasHalfOpen <;>
    simp only [Bool.false_eq_true, if_false, if_true, eq_self_iff_true]
  · exact oif_recordFailure cfg b now hnow
  · exact oif_set_hoar _ _ (oif_recordFailure cfg b now hnow)
  · exact oif_recordSuccess cfg b now hthr h
  · exact oif_set_hoar _ _ (oif_recordSuccess cfg b now hthr h)

theorem oif_forceState (b : Breaker)
    (s : CircuitState) (now : Nat) (hnow : 0 < now)
    (h : OpenImpliesFailure b) : OpenImpliesFailure (forceState b s now) := by
  unfold forceState
  cases s with
  | closed =>
    intro hante
    rcases hante with h1 | h1
    · have h1' : (transitionTo b .closed).state = .«open» := h1
      rw [transitionTo_state] at h1'
      exact absurd h1' (by decide)
    · have h1' : HasFailure (resetBuckets (transitionTo b .closed).buckets) := h1
      exact absurd h1' (resetBuckets_no_failure _)
  | «open» =>
    intro _
    exact ⟨now, rfl, hnow⟩
  | halfOpen =>
    refine oif_of_fields b _ h ?_ ?_ ?_
    · intro hst
      have hst' : (transitionTo b .halfOpen).state = .«open» := hst
      rw [transitionTo_state] at hst'
      exact absurd hst' (by decide)
    · intro hfl
      have hfl' : HasFailure (transitionTo b .halfOpen).buckets := hfl
      exact transitionTo_hasFailure _ _ hfl'
    · exact transitionTo_lastFailureTime b _

theorem oif_resetBreaker (b : Breaker) :
    OpenImpliesFailure (resetBreaker b) := by
  intro hante
  rcases hante with h1 | h1
  · exact absurd h1 (by simp [resetBreaker])
  · exact absurd h1 (resetBuckets_no_failure _)

/-- Every operation's `Date.now()` reading is positive (as the real
millisecond clock always is). -/
def BreakerOp.posTime : BreakerOp → Bool
  | .execBegin now => decide (0 < now)
  | .execEnd _ _ now => decide (0 < now)
  | .recordSuccess now => decide (0 < now)
  | .recordFailure now => decide (0 < now)
  | .getState now => decide (0 < now)
  | .getMetrics now => decide (0 < now)
  | .forceState _ now => decide (0 < now)
  | .reset => true

theorem oif_step (cfg : ResolvedCircuitConfig) (b : Breaker) (op : BreakerOp)
    (hthr : 1 ≤ cfg.failureThreshold) (hop : op.posTime = true)
    (h : OpenImpliesFailure b) : OpenImpliesFailure (step cfg b op) := by
  cases op with
  | execBegin now => exact oif_executeBegin cfg b now h
  | execEnd w s now =>
    exact oif_executeEnd cfg b w s now hthr (by simpa [BreakerOp.posTime] using hop) h
  | recordSuccess now => exact oif_recordSuccess cfg b now hthr h
  | recordFailure now =>
    exact oif_recordFailure cfg b now (by simpa [BreakerOp.posTime] using hop)
  | getState now => exact oif_checkStateTransition cfg b now h
  | getMetrics now => exact oif_checkStateTransition cfg b now h
  | forceState s now =>
    exact oif_forceState b s now (by simpa [BreakerOp.posTime] using hop) h
  | reset => exact oif_resetBreaker b

theorem oif_initialBreaker (cfg : ResolvedCircuitConfig) :
    OpenImpliesFailure (initialBreaker cfg) := by
  intro hante
  rcases hante with h1 | h1
  · exact absurd h1 (by simp [initialBreaker])
  · obtain ⟨bk, hmem, hpos⟩ := h1
    rw [show (initialBreaker cfg).buckets = List.replicate cfg.bucketCount ⟨0, 0, 0⟩
      from rfl] at hmem
    obtain rfl := (List.eq_of_mem_replicate hmem)
    simp at hpos

theorem oif_runFrom (cfg : ResolvedCircuitConfig)
    (hthr : 1 ≤ cfg.failureThreshold) :
    ∀ (ops : List BreakerOp) (b : Breaker), OpenImpliesFailure b →
    (∀ op ∈ ops, op.posTime = true) → OpenImpliesFailure (runFrom cfg b ops) := by
  intro ops
  induction ops with
  | nil => intro b h _; exact h
  | cons op rest ih =>
    intro b h hops
    have hstep := oif_step cfg b op hthr (hops op (List.mem_cons_self _ _)) h
    exact ih (step cfg b op) hstep
      (fun o ho => hops o (List.mem_cons_of_mem _ ho))

/-- C10: in every breaker state reachable from a fresh `CircuitBreaker` by
operations carrying positive clock readings (`Date.now() > 0`), being open
implies a positive `lastFailureTime` is recorded — so the `shouldAttemptReset`
branch for a missing `lastFailureTime` is unreachable while open — and
`getState` moves an open breaker to half-open only when `resetTimeout` has
elapsed since that recorded failure time. -/
theorem circuitBreaker_open_implies_lastFailure (cfg : ResolvedCircuitConfig)
    (ops : List BreakerOp) (hthr : 1 ≤ cfg.failureThreshold)
    (hops : ∀ op ∈ ops, op.posTime = true) :
    ((run cfg ops).state = .«open» →
      ∃ t, (run cfg ops).lastFailureTime = some t ∧ 0 < t) ∧
    (∀ now : Nat, (run cfg ops).state = .«open» →
      (getState cfg (run cfg ops) now).2 = .halfOpen →
      ∃ t, (run cfg ops).lastFailureTime = some t ∧
        t + cfg.resetTimeout ≤ now) := by
  have hoif : OpenImpliesFailure (run cfg ops) :=
    oif_runFrom cfg hthr ops (initialBreaker cfg) (oif_initialBreaker cfg) hops
  refine ⟨fun hopen => hoif (Or.inl hopen), ?_⟩
  intro now hopen htrans
  obtain ⟨t, hlft, ht⟩ := hoif (Or.inl hopen)
  have htrans' : (checkStateTransition cfg (run cfg ops) now).state
      = .halfOpen := htrans
  unfold checkStateTransition at htrans'
  split_ifs at htrans' with h1 h2
  · rw [hopen] at htrans'
    exact absurd htrans' (by decide)
  · have hres : shouldAttemptReset cfg (run cfg ops) now = true := h2.2
    unfold shouldAttemptReset at hres
    rw [hlft] at hres
    have ht0 : ¬(t = 0) := by omega
    simp only [ht0, if_false, decide_eq_true_eq] at hres
    refine ⟨t, hlft, ?_⟩
    omega
  · rw [hopen] at htrans'
    exact absurd htrans' (by decide)

/-- C10 witness: a breaker forced open at time 5. -/
theorem circuitBreaker_open_implies_lastFailure_witness :
    ((run (validateAndResolveConfig ({} : CircuitBreakerOptions Unit))
        [.forceState .«open» 5]).state = .«open» →
      ∃ t, (run (validateAndResolveConfig ({} : CircuitBreakerOptions Unit))
        [.forceState .«open» 5]).lastFailureTime = some t ∧ 0 < t) ∧
    (∀ now : Nat,
      (run (validateAndResolveConfig ({} : CircuitBreakerOptions Unit))
        [.forceState .«open» 5]).state = .«open» →
      (getState (validateAndResolveConfig ({} : CircuitBreakerOptions Unit))
        (run (validateAndResolveConfig ({} : CircuitBreakerOptions Unit))
          [.forceState .«open» 5]) now).2 = .halfOpen →
      ∃ t, (run (validateAndResolveConfig ({} : CircuitBreakerOptions Unit))
        [.forceState .«open» 5]).lastFailureTime = some t ∧
        t + (validateAndResolveConfig
          ({} : CircuitBreakerOptions Unit)).resetTimeout ≤ now) :=
  circuitBreaker_open_implies_lastFailure
    (validateAndResolveConfig ({} : CircuitBreakerOptions Unit))
    [.forceState .«open» 5] (by decide) (by decide)

/-! ## The half-open probe-slot bound -/

theorem recordSuccess_hoar_le (cfg : ResolvedCircuitConfig) (b : Breaker)
    (now : Nat) :
    (recordSuccess cfg b now).halfOpenActiveRequests
      ≤ b.halfOpenActiveRequests := by
  unfold recordSuccess
  dsimp only
  refine le_trans (evaluateState_hoar_le cfg _ now) ?_
  split_ifs with h1 h2
  · exact le_trans (transitionTo_hoar_le _ _) (le_refl _)
  · exact le_refl _
  · exact le_refl _

theorem recordFailure_hoar_le (cfg : ResolvedCircuitConfig) (b : Breaker)
    (now : Nat) :
    (recordFailure cfg b now).halfOpenActiveRequests
      ≤ b.halfOpenActiveRequests := by
  unfold recordFailure
  dsimp only
  refine le_trans (evaluateState_hoar_le cfg _ now) ?_
  split_ifs with h1
  · exact le_trans (transitionTo_hoar_le _ _) (le_refl _)
  · exact le_refl _

theorem executeBegin_hoar (cfg : ResolvedCircuitConfig) (b : Breaker)
    (now : Nat) (h : b.halfOpenActiveRequests ≤ cfg.halfOpenMaxRequests) :
    (executeBegin cfg b now).1.halfOpenActiveRequests
      ≤ cfg.halfOpenMaxRequests := by
  have h1 : (checkStateTransition cfg b now).halfOpenActiveRequests
      ≤ cfg.halfOpenMaxRequests :=
    le_trans (checkStateTransition_hoar_le cfg b now) h
  unfold executeBegin getState
  dsimp only
  split_ifs with ha hb hc
  · exact h1
  · exact h1
  · show (checkStateTransition cfg b now).halfOpenActiveRequests + 1
      ≤ cfg.halfOpenMaxRequests
    omega
  · exact h1

theorem step_hoar (cfg : ResolvedCircuitConfig) (b : Breaker) (op : BreakerOp)
    (h : b.halfOpenActiveRequests ≤ cfg.halfOpenMaxRequests) :
    (step cfg b op).halfOpenActiveRequests ≤ cfg.halfOpenMaxRequests := by
  cases op with
  | execBegin now => exact executeBegin_hoar cfg b now h
  | execEnd w s now =>
    show (executeEnd cfg b w s now).halfOpenActiveRequests ≤ _
    unfold executeEnd
    cases s <;> cases w <;>
      simp only [Bool.false_eq_true, if_false, if_true, eq_self_iff_true]
    · exact le_trans (recordFailure_hoar_le cfg b now) h
    · show (recordFailure cfg b now).halfOpenActiveRequests - 1 ≤ _
      have := le_trans (recordFailure_hoar_le cfg b now) h
      omega
    · exact le_trans (recordSuccess_hoar_le cfg b now) h
    · show (recordSuccess cfg b now).halfOpenActiveRequests - 1 ≤ _
      have := le_trans (recordSuccess_hoar_le cfg b now) h
      omega
  | recordSuccess now => exact le_trans (recordSuccess_hoar_le cfg b now) h
  | recordFailure now => exact le_trans (recordFailure_hoar_le cfg b now) h
  | getState now => exact le_trans (checkStateTransition_hoar_le cfg b now) h
  | getMetrics now => exact le_trans (checkStateTransition_hoar_le cfg b now) h
  | forceState s now =>
    show (forceState b s now).halfOpenActiveRequests ≤ _
    unfold forceState
    cases s with
    | closed => exact Nat.zero_le _
    | «open» =>
      show (transitionTo b .«open»).halfOpenActiveRequests ≤ _
      exact le_trans (transitionTo_hoar_le _ _) h
    | halfOpen => exact Nat.zero_le _
  | reset => exact Nat.zero_le _

theorem run_hoar (cfg : ResolvedCircuitConfig) (ops : List BreakerOp) :
    (run cfg ops).halfOpenActiveRequests ≤ cfg.halfOpenMaxRequests := by
  suffices h : ∀ (l : List BreakerOp) (b : Breaker),
      b.halfOpenActiveRequests ≤ cfg.halfOpenMaxRequests →
      (runFrom cfg b l).halfOpenActiveRequests ≤ cfg.halfOpenMaxRequests by
    exact h ops (initialBreaker cfg) (Nat.zero_le _)
  intro l
  induction l with
  | nil => intro b hb; exact hb
  | cons op rest ih =>
    intro b hb
    exact ih (step cfg b op) (step_hoar cfg b op hb)

/-- The resolved configuration of the C6 scenario: `halfOpenMaxRequests = 1`,
everything else default. -/
def demoHalfOpenCfg : ResolvedCircuitConfig :=
  validateAndResolveConfig
    ({ halfOpenMaxRequests := some 1 } : CircuitBreakerOptions Unit)

/-- C6: in every reachable breaker state that is half-open, the number of
active probes never exceeds `halfOpenMaxRequests`; and in the concrete
`halfOpenMaxRequests = 1` scenario a first `execute` is admitted
(incrementing the counter) while a second `execute` issued with the probe
still in flight is rejected with the distinct probe-limit sentinel message,
leaving the counter untouched. -/
theorem circuitBreaker_halfOpen_probe_limit (cfg : ResolvedCircuitConfig)
    (ops : List BreakerOp) (_hho : (run cfg ops).state = .halfOpen) :
    (run cfg ops).halfOpenActiveRequests ≤ cfg.halfOpenMaxRequests ∧
    (executeBegin demoHalfOpenCfg (run demoHalfOpenCfg [.forceState .halfOpen 1]) 2
        = ({ run demoHalfOpenCfg [.forceState .halfOpen 1] with
              halfOpenActiveRequests := 1 }, .admitted true) ∧
      executeBegin demoHalfOpenCfg
          { run demoHalfOpenCfg [.forceState .halfOpen 1] with
            halfOpenActiveRequests := 1 } 2
        = ({ run demoHalfOpenCfg [.forceState .halfOpen 1] with
              halfOpenActiveRequests := 1 },
            .rejected "Circuit breaker is half-open, probe limit reached")) := by
  refine ⟨run_hoar cfg ops, by decide, by decide⟩

/-- C6 witness: the bound applied to a reachable half-open state with one
active probe. -/
theorem circuitBreaker_halfOpen_probe_limit_witness :
    (run demoHalfOpenCfg [.forceState .halfOpen 1, .execBegin 2]).halfOpenActiveRequests
        ≤ demoHalfOpenCfg.halfOpenMaxRequests ∧
    (executeBegin demoHalfOpenCfg (run demoHalfOpenCfg [.forceState .halfOpen 1]) 2
        = ({ run demoHalfOpenCfg [.forceState .halfOpen 1] with
              halfOpenActiveRequests := 1 }, .admitted true) ∧
      executeBegin demoHalfOpenCfg
          { run demoHalfOpenCfg [.forceState .halfOpen 1] with
            halfOpenActiveRequests := 1 } 2
        = ({ run demoHalfOpenCfg [.forceState .halfOpen 1] with
              halfOpenActiveRequests := 1 },
            .rejected "Circuit breaker is half-open, probe limit reached")) :=
  circuitBreaker_halfOpen_probe_limit demoHalfOpenCfg
    [.forceState .halfOpen 1, .execBegin 2] (by decide)

/-! ## Opening the breaker at the failure threshold -/

theorem evaluateState_closed_state_iff (cfg : ResolvedCircuitConfig)
    (b : Breaker) (now : Nat) (hb : b.state = .closed) :
    ((evaluateState cfg b now).state = .«open» ↔
      (cfg.minimumRequests ≤ liveSuccesses cfg b.buckets now
          + liveFailures cfg b.buckets now ∧
        rateAtLeastThreshold cfg.failureThreshold
          (liveFailures cfg b.buckets now)
          (liveSuccesses cfg b.buckets now + liveFailures cfg b.buckets now)
          = true)) := by
  rw [evaluateState_closed_eq cfg b now hb]
  split_ifs with h1 h2
  · rw [hb]
    constructor
    · intro h; exact absurd h (by decide)
    · rintro ⟨hmin, _⟩; omega
  · rw [transitionTo_state]
    constructor
    · intro _; exact ⟨by omega, h2⟩
    · intro _; rfl
  · rw [hb]
    constructor
    · intro h; exact absurd h (by decide)
    · rintro ⟨_, hr⟩; exact absurd hr h2

theorem recordFailure_closed_eq (cfg : ResolvedCircuitConfig) (b : Breaker)
    (now : Nat) (hb : b.state = .closed) :
    recordFailure cfg b now = evaluateState cfg
      { b with lastFailureTime := some now
               buckets := recordToBuckets cfg b.buckets now true } now := by
  unfold recordFailure
  dsimp only
  rw [if_neg ?_]
  intro hc
  have hc' : b.state = .halfOpen := hc
  rw [hb] at hc'
  exact absurd hc' (by decide)

theorem recordSuccess_closed_eq (cfg : ResolvedCircuitConfig) (b : Breaker)
    (now : Nat) (hb : b.state = .closed) :
    recordSuccess cfg b now = evaluateState cfg
      { b with lastSuccessTime := some now
               buckets := recordToBuckets cfg b.buckets now false } now := by
  unfold recordSuccess
  dsimp only
  rw [if_neg ?_]
  intro hc
  have hc' : b.state = .halfOpen := hc
  rw [hb] at hc'
  exact absurd hc' (by decide)

/-- The total request count recorded over the whole bucket ring. -/
def bucketsTotal (bks : List Bucket) : Nat :=
  (bks.map (fun bk => bk.success + bk.failure)).sum

theorem liveTotal_le_bucketsTotal (cfg : ResolvedCircuitConfig) (now : Nat) :
    ∀ bks : List Bucket,
    liveSuccesses cfg bks now + liveFailures cfg bks now ≤ bucketsTotal bks := by
  intro bks
  induction bks with
  | nil => simp [liveSuccesses, liveFailures, bucketsTotal]
  | cons hd tl ih =>
    simp only [liveSuccesses, liveFailures, bucketsTotal, List.map_cons,
      List.sum_cons] at *
    rcases Bool.eq_false_or_eq_true (bucketLive cfg now hd) with hl | hl <;>
      simp only [hl, if_true, Bool.false_eq_true, if_false] <;> omega

theorem bucketsTotal_set_le :
    ∀ (bks : List Bucket) (i : Nat) (v old : Bucket), bks.get? i = some old →
    v.success + v.failure ≤ old.success + old.failure + 1 →
    bucketsTotal (bks.set i v) ≤ bucketsTotal bks + 1 := by
  intro bks
  induction bks with
  | nil => intro i v old h _; simp at h
  | cons hd tl ih =>
    intro i v old h hb
    cases i with
    | zero =>
      obtain rfl : hd = old := by simpa using h
      simp only [List.set, bucketsTotal, List.map_cons, List.sum_cons]
      omega
    | succ n =>
      have h' : tl.get? n = some old := by simpa using h
      have := ih n v old h' hb
      simp only [List.set, bucketsTotal, List.map_cons, List.sum_cons] at *
      omega

theorem recordToBuckets_total_le (cfg : ResolvedCircuitConfig)
    (bks : List Bucket) (now : Nat) (isFailure : Bool) :
    bucketsTotal (recordToBuckets cfg bks now isFailure)
      ≤ bucketsTotal bks + 1 := by
  unfold recordToBuckets
  dsimp only
  cases hidx : bks.get? ((now / cfg.bucketDuration) % cfg.bucketCount) with
  | none =>
    dsimp only
    omega
  | some bk =>
    dsimp only
    apply bucketsTotal_set_le _ _ _ bk hidx
    split_ifs <;> simp <;> omega

theorem recordOutcome_closed_small (cfg : ResolvedCircuitConfig) (b : Breaker)
    (now : Nat) (isF : Bool) (hb : b.state = .closed)
    (hsmall : bucketsTotal b.buckets + 1 < cfg.minimumRequests) :
    (if isF then recordFailure cfg b now else recordSuccess cfg b now).state
        = .closed ∧
    bucketsTotal
        (if isF then recordFailure cfg b now
         else recordSuccess cfg b now).buckets
      ≤ bucketsTotal b.buckets + 1 := by
  have hlive : ∀ isFailure : Bool,
      liveSuccesses cfg (recordToBuckets cfg b.buckets now isFailure) now
        + liveFailures cfg (recordToBuckets cfg b.buckets now isFailure) now
        < cfg.minimumRequests := by
    intro isFailure
    have h1 := liveTotal_le_bucketsTotal cfg now
      (recordToBuckets cfg b.buckets now isFailure)
    have h2 := recordToBuckets_total_le cfg b.buckets now isFailure
    omega
  cases isF with
  | true =>
    simp only [if_true]
    rw [recordFailure_closed_eq cfg b now hb]
    rw [evaluateState_closed_eq cfg
      { b with lastFailureTime := some now
               buckets := recordToBuckets cfg b.buckets now true } now hb]
    rw [if_pos (hlive true)]
    exact ⟨hb, recordToBuckets_total_le cfg b.buckets now true⟩
  | false =>
    simp only [Bool.false_eq_true, if_false]
    rw [recordSuccess_closed_eq cfg b now hb]
    rw [evaluateState_closed_eq cfg
      { b with lastSuccessTime := some now
               buckets := recordToBuckets cfg b.buckets now false } now hb]
    rw [if_pos (hlive false)]
    exact ⟨hb, recordToBuckets_total_le cfg b.buckets now false⟩

theorem records_keep_closed (cfg : ResolvedCircuitConfig) :
    ∀ (recs : List (Bool × Nat)) (b : Breaker), b.state = .closed →
    bucketsTotal b.buckets + recs.length < cfg.minimumRequests →
    (recs.foldl (fun acc r =>
        if r.1 then recordFailure cfg acc r.2
        else recordSuccess cfg acc r.2) b).state = .closed := by
  intro recs
  induction recs with
  | nil => intro b hb _; exact hb
  | cons r rest ih =>
    intro b hb hcnt
    simp only [List.length_cons] at hcnt
    simp only [List.foldl_cons]
    obtain ⟨hst, htot⟩ :=
      recordOutcome_closed_small cfg b r.2 r.1 hb (by omega)
    exact ih _ hst (by omega)

/-- The resolved configuration of the C5 scenario: `failureThreshold = 50`,
`minimumRequests = 4`, everything else default. -/
def demoC5Cfg : ResolvedCircuitConfig :=
  validateAndResolveConfig
    ({ failureThreshold := some 50, minimumRequests := some 4 } :
      CircuitBreakerOptions Unit)

/-- C5: a closed breaker transitions to open on recording an outcome exactly
when the live-bucket totals reach `minimumRequests` and the failure rate
reaches `failureThreshold` percent; with `failureThreshold = 50` and
`minimumRequests = 4`, four failures recorded inside the rolling window open
a fresh breaker, and any fewer than `minimumRequests` recorded outcomes never
open it. -/
theorem circuitBreaker_opens_at_threshold (cfg : ResolvedCircuitConfig)
    (b : Breaker) (now : Nat) (hb : b.state = .closed) :
    ((recordFailure cfg b now).state = .«open» ↔
      (cfg.minimumRequests ≤
          liveSuccesses cfg (recordToBuckets cfg b.buckets now true) now
            + liveFailures cfg (recordToBuckets cfg b.buckets now true) now ∧
        (cfg.failureThreshold : ℚ) ≤ failureRateQ
          (liveFailures cfg (recordToBuckets cfg b.buckets now true) now)
          (liveSuccesses cfg (recordToBuckets cfg b.buckets now true) now
            + liveFailures cfg (recordToBuckets cfg b.buckets now true) now))) ∧
    ((recordSuccess cfg b now).state = .«open» ↔
      (cfg.minimumRequests ≤
          liveSuccesses cfg (recordToBuckets cfg b.buckets now false) now
            + liveFailures cfg (recordToBuckets cfg b.buckets now false) now ∧
        (cfg.failureThreshold : ℚ) ≤ failureRateQ
          (liveFailures cfg (recordToBuckets cfg b.buckets now false) now)
          (liveSuccesses cfg (recordToBuckets cfg b.buckets now false) now
            + liveFailures cfg (recordToBuckets cfg b.buckets now false) now))) ∧
    ((run demoC5Cfg [.recordFailure 1, .recordFailure 1, .recordFailure 1,
        .recordFailure 1]).state = .«open») ∧
    (∀ recs : List (Bool × Nat), recs.length < cfg.minimumRequests →
      (recs.foldl (fun acc r =>
          if r.1 then recordFailure cfg acc r.2
          else recordSuccess cfg acc r.2) (initialBreaker cfg)).state
        = .closed) := by
  refine ⟨?_, ?_, by decide, ?_⟩
  · rw [recordFailure_closed_eq cfg b now hb,
      evaluateState_closed_state_iff cfg
        { b with lastFailureTime := some now
                 buckets := recordToBuckets cfg b.buckets now true } now hb,
      rateAtLeastThreshold_eq_rateQ]
    simp only [decide_eq_true_eq]
  · rw [recordSuccess_closed_eq cfg b now hb,
      evaluateState_closed_state_iff cfg
        { b with lastSuccessTime := some now
                 buckets := recordToBuckets cfg b.buckets now false } now hb,
      rateAtLeastThreshold_eq_rateQ]
    simp only [decide_eq_true_eq]
  · intro recs hlen
    apply records_keep_closed cfg recs (initialBreaker cfg) rfl
    have hzero : bucketsTotal (initialBreaker cfg).buckets = 0 := by
      show bucketsTotal (List.replicate cfg.bucketCount ⟨0, 0, 0⟩) = 0
      simp [bucketsTotal, List.map_replicate, List.sum_replicate]
    omega

/-- C5 witness: the threshold characterization applied to a fresh breaker. -/
theorem circuitBreaker_opens_at_threshold_witness :
    ((recordFailure demoC5Cfg (initialBreaker demoC5Cfg) 1).state = .«open» ↔
      (demoC5Cfg.minimumRequests ≤
          liveSuccesses demoC5Cfg
              (recordToBuckets demoC5Cfg (initialBreaker demoC5Cfg).buckets 1 true) 1
            + liveFailures demoC5Cfg
              (recordToBuckets demoC5Cfg (initialBreaker demoC5Cfg).buckets 1 true) 1 ∧
        (demoC5Cfg.failureThreshold : ℚ) ≤ failureRateQ
          (liveFailures demoC5Cfg
            (recordToBuckets demoC5Cfg (initialBreaker demoC5Cfg).buckets 1 true) 1)
          (liveSuccesses demoC5Cfg
              (recordToBuckets demoC5Cfg (initialBreaker demoC5Cfg).buckets 1 true) 1
            + liveFailures demoC5Cfg
              (recordToBuckets demoC5Cfg (initialBreaker demoC5Cfg).buckets 1 true) 1))) :=
  (circuitBreaker_opens_at_threshold demoC5Cfg (initialBreaker demoC5Cfg) 1 rfl).1

/-- C9: the `stateStore`, `circuitId` and `syncInterval` options have no
effect on breaker behaviour — two configurations differing only in those
fields (even over different store types) resolve to the same configuration,
and every operation sequence yields identical states and identical observable
outputs (results, states, metrics); the breaker model, like the source
constructor and methods, never consults the store. -/
theorem circuitBreaker_stateStore_no_effect {σ σ' : Type}
    (o1 : CircuitBreakerOptions σ) (o2 : CircuitBreakerOptions σ')
    (h1 : o1.failureThreshold = o2.failureThreshold)
    (h2 : o1.minimumRequests = o2.minimumRequests)
    (h3 : o1.rollingWindow = o2.rollingWindow)
    (h4 : o1.resetTimeout = o2.resetTimeout)
    (h5 : o1.successThreshold = o2.successThreshold)
    (h6 : o1.halfOpenMaxRequests = o2.halfOpenMaxRequests)
    (h7 : o1.bucketCount = o2.bucketCount) :
    validateAndResolveConfig o1 = validateAndResolveConfig o2 ∧
    (∀ ops : List BreakerOp,
      run (validateAndResolveConfig o1) ops
          = run (validateAndResolveConfig o2) ops ∧
      trace (validateAndResolveConfig o1) ops
          = trace (validateAndResolveConfig o2) ops) := by
  have hcfg : validateAndResolveConfig o1 = validateAndResolveConfig o2 := by
    unfold validateAndResolveConfig
    rw [h1, h2, h3, h4, h5, h6, h7]
  exact ⟨hcfg, fun ops => ⟨by rw [hcfg], by rw [hcfg]⟩⟩

/-- Options with a unit-typed store, an id and a sync interval set. -/
def demoOptsWithStore : CircuitBreakerOptions Unit :=
  { stateStore := some (), circuitId := some "payment-service"
    syncInterval := some 5 }

/-- Options with a string-typed store and the other two fields absent. -/
def demoOptsOtherStore : CircuitBreakerOptions String :=
  { stateStore := some "redis" }

/-- C9 witness: two concrete configurations differing only in the three
persistence fields behave identically. -/
theorem circuitBreaker_stateStore_no_effect_witness :
    validateAndResolveConfig demoOptsWithStore
        = validateAndResolveConfig demoOptsOtherStore ∧
    (∀ ops : List BreakerOp,
      run (validateAndResolveConfig demoOptsWithStore) ops
          = run (validateAndResolveConfig demoOptsOtherStore) ops ∧
      trace (validateAndResolveConfig demoOptsWithStore) ops
          = trace (validateAndResolveConfig demoOptsOtherStore) ops) :=
  circuitBreaker_stateStore_no_effect demoOptsWithStore demoOptsOtherStore
    rfl rfl rfl rfl rfl rfl rfl

/-- C1 witness (amended claim): concrete mutations of the pre-existing
caller objects after `setState` leave the stored state unchanged. -/
theorem inMemoryStateStore_deep_copy_amended_witness :
    storedState (InMemoryStateStore.setState ⟨[]⟩ c1Heap "a" 0).1
        (applyWrites (InMemoryStateStore.setState ⟨[]⟩ c1Heap "a" 0).2
          [.stateW 0 ⟨.«open», [0], some 3, none, 1, 1⟩, .bucketW 0 ⟨9, 9, 9⟩])
        "a"
      = storedState (InMemoryStateStore.setState ⟨[]⟩ c1Heap "a" 0).1
        (InMemoryStateStore.setState ⟨[]⟩ c1Heap "a" 0).2 "a" :=
  inMemoryStateStore_deep_copy_amended.1 ⟨[]⟩ c1Heap "a" 0
    (by decide)
    [.stateW 0 ⟨.«open», [0], some 3, none, 1, 1⟩, .bucketW 0 ⟨9, 9, 9⟩]
    (by
      intro w hw
      fin_cases hw <;> simp [CellWrite.preexisting, c1Heap])
